import Mathlib

/-
Verification of the execution/orchestration engine of a mutation-testing
harness (lab.rs and output.rs) against its natural-language specification.

The source files lab.rs and output.rs are embedded directly.  Collaborator
modules referenced by lab.rs but not part of the sources here (the mutation
type, the outcome accumulator, the options snapshot, the cargo subprocess
runner) are modelled from the specification; each such definition carries a
doc comment starting with "Modelled from the spec:".

Effects are made explicit: the orchestrator returns, besides its result, a
trace of events (pipeline invocations, phase executions, log creations,
outcome accumulations, JSON file writes), and the scratch workspace is
threaded as explicit state (a map from file names to file contents).
-/

namespace CargoMutants

/-- Durations are modelled in milliseconds with exact arithmetic.
(The source multiplies a Duration by the f32 constant 5.0; that
multiplication is modelled as exact integer scaling.) -/
abbrev Duration := Nat

/-- A duration of the given number of seconds. -/
def Duration.secs (s : Nat) : Duration := 1000 * s

/-- Modelled from the spec: phases other than Test run with no timeout
(the source passes Duration::MAX); an arbitrarily large sentinel value. -/
def durationMax : Duration := 2 ^ 64

/-- Modelled from the spec: a mutation from the Mutation Source collaborator
(mutate.rs is not among the sources).  It can be applied to a directory
(replacing one file's text) and later reverted, and can render a
human-readable diff and a display form. -/
structure Mutation where
  file_name : String
  mutated_code : String
  diff_text : String
  display : String
deriving DecidableEq, Repr

/-- Modelled from the spec: an enumerated step of the build pipeline
(outcome.rs is not among the sources): Check, Build, Test, in that order.
The variants are fixed by the match arms in lab.rs run_cargo_phases. -/
inductive Phase where
  | check
  | build
  | test
deriving DecidableEq, Repr

/-- Modelled from the spec: Phase::ALL, the full ordered phase list
used by the baseline and mutant scenarios. -/
def Phase.ALL : List Phase := [Phase.check, Phase.build, Phase.test]

/-- Modelled from the spec: the structured result of one build-tool
invocation: success, failure or timeout (Build Runner interface). -/
inductive PhaseResult where
  | success
  | failure
  | timeout
deriving DecidableEq, Repr

/-- Modelled from the spec: cargo_result.success() — true only for a
successful phase result (a timeout is distinct from a failure and
is also not a success). -/
def PhaseResult.isSuccess : PhaseResult → Bool
  | PhaseResult.success => true
  | PhaseResult.failure => false
  | PhaseResult.timeout => false

/-- Modelled from the spec: the Options configuration snapshot
(options are loaded outside these sources).  Fields are the recognized
options enumerated in the spec data model. -/
structure Options where
  build_source : Bool
  copy_target : Bool
  check_only : Bool
  shuffle : Bool
  test_timeout : Option Duration
  additional_cargo_test_args : List String
  show_times : Bool
deriving DecidableEq, Repr

/-- Modelled from the spec: whether an explicit test timeout was configured. -/
def Options.has_test_timeout (o : Options) : Bool := o.test_timeout.isSome

/-- Modelled from the spec: set the test timeout on this options value. -/
def Options.set_test_timeout (o : Options) (d : Duration) : Options :=
  { o with test_timeout := some d }

/-- Modelled from the spec: the effective test timeout; when none was
configured (and none was derived) the Test phase is effectively
unbounded. -/
def Options.test_timeout_val (o : Options) : Duration :=
  o.test_timeout.getD durationMax

/-- What type of build, check, or test was this?  (lab.rs Scenario) -/
inductive Scenario where
  | sourceTree
  | baseline
  | mutant (mutation : Mutation) (i_mutation : Nat) (n_mutations : Nat)
deriving DecidableEq, Repr

/-- Display string of a scenario (lab.rs impl Display for Scenario). -/
def Scenario.displayStr : Scenario → String
  | Scenario.sourceTree => "source tree"
  | Scenario.baseline => "baseline"
  | Scenario.mutant m _ _ => m.display

/-- Whether the scenario is a mutant (lab.rs Scenario::is_mutant). -/
def Scenario.isMutant : Scenario → Bool
  | Scenario.mutant _ _ _ => true
  | _ => false

/-- Modelled from the spec: a phase entry of an Outcome — the phase, its
wall-clock duration and its result, in the order executed. -/
structure PhaseEntry where
  phase : Phase
  duration : Duration
  result : PhaseResult
deriving DecidableEq, Repr

/-- Modelled from the spec: the result of running one full phase pipeline
for one scenario (outcome.rs is not among the sources): the scenario and,
per phase actually executed, its duration and result, appended in
execution order. -/
structure Outcome where
  scenario : Scenario
  phase_results : List PhaseEntry
deriving DecidableEq, Repr

/-- Modelled from the spec: a fresh Outcome with no phases recorded yet. -/
def Outcome.new (scenario : Scenario) : Outcome :=
  { scenario := scenario, phase_results := [] }

/-- Modelled from the spec: append one phase's duration and result. -/
def Outcome.add_phase_result (oc : Outcome) (phase : Phase) (d : Duration)
    (r : PhaseResult) : Outcome :=
  { oc with phase_results := oc.phase_results ++ [⟨phase, d, r⟩] }

/-- Modelled from the spec: success holds iff every recorded phase
succeeded. -/
def Outcome.success (oc : Outcome) : Bool :=
  oc.phase_results.all (fun e => e.result.isSuccess)

/-- Modelled from the spec: the most recently appended phase. -/
def Outcome.last_phase (oc : Outcome) : Option Phase :=
  oc.phase_results.getLast?.map (fun e => e.phase)

/-- Modelled from the spec: the measured duration of the Test phase,
when one was recorded. -/
def Outcome.test_duration (oc : Outcome) : Option Duration :=
  (oc.phase_results.find? (fun e => e.phase == Phase.test)).map
    (fun e => e.duration)

/-- Modelled from the spec: the accumulator over all Outcomes of one run;
mutated only by appending. -/
abbrev LabOutcome := List Outcome

/-- An unrecoverable environment error surfaced by the run (anyhow errors
in the source). -/
inductive LabError where
  | cargoError (msg : String)
  | unexpectedScenario
deriving DecidableEq, Repr

/-- The scratch workspace: a map from file names to file contents.
The build directory is mutated in place by mutation application. -/
abbrev Workspace := String → String

/-- Overwrite one file's contents in a workspace. -/
def setFile (ws : Workspace) (name content : String) : Workspace :=
  fun n => if n = name then content else ws n

/-- Observable effects of a run, in order of occurrence. -/
inductive Event where
  /-- A phase-pipeline invocation started for this scenario with this
  requested phase list (run_cargo_phases entry). -/
  | pipelineRun (scenario : Scenario) (phases : List Phase)
  /-- A per-scenario log file was created under the log subdirectory. -/
  | createLog (name : String)
  /-- The mutant's diff was written to the log. -/
  | logDiff (diff : String)
  /-- One cargo phase was executed with these arguments and this timeout. -/
  | runPhase (scenario : Scenario) (phase : Phase) (args : List String)
      (timeout : Duration)
  /-- An Outcome was appended to the LabOutcome accumulator. -/
  | outcomeAdded (outcome : Outcome)
  /-- The mutation list was requested from the Mutation Source. -/
  | queryMutations
  /-- mutants.json was written with the full planned mutation list. -/
  | writeMutantsJson (mutations : List Mutation)
  /-- outcomes.json was rewritten with this complete LabOutcome state. -/
  | writeOutcomesJson (outcome : LabOutcome)
deriving DecidableEq, Repr

/-- Modelled from the spec: the environment of one run — the Build Runner
(run.rs is not among the sources; run_cargo returns a structured
success/failure/timeout result or an unrecoverable error), the measured
wall-clock duration of each phase, the source tree, the scratch copy
produced by the workspace manager, the mutation list supplied by the
Mutation Source, and the random permutation used when shuffling. -/
structure LabEnv where
  result : Workspace → Scenario → Phase → Except LabError PhaseResult
  duration : Scenario → Phase → Duration
  source_ws : Workspace
  scratch : Workspace
  mutations : List Mutation
  shuffle_fn : List Mutation → List Mutation

/-- The fixed cargo argument list of each phase (lab.rs run_cargo_phases);
the Test phase appends the user-supplied extra test arguments. -/
def cargo_args (o : Options) : Phase → List String
  | Phase.check => ["check", "--tests"]
  | Phase.build => ["build", "--tests"]
  | Phase.test => "test" :: o.additional_cargo_test_args

/-- The timeout passed to the build runner for each phase
(lab.rs run_cargo_phases): only Test is subject to a timeout. -/
def phase_timeout (o : Options) : Phase → Duration
  | Phase.test => o.test_timeout_val
  | _ => durationMax

/-- The phase loop of run_cargo_phases (lab.rs lines 189-219): run each
phase in order, appending its duration and result to the outcome, and
stop after a successful Check in check-only mode or after any
non-successful result. -/
def run_phase_list (env : LabEnv) (o : Options) (ws : Workspace)
    (scenario : Scenario) :
    List Phase → Outcome → (Except LabError Outcome) × List Event
  | [], oc => (Except.ok oc, [])
  | phase :: rest, oc =>
    let ev := Event.runPhase scenario phase (cargo_args o phase)
      (phase_timeout o phase)
    match env.result ws scenario phase with
    | Except.error e => (Except.error e, [ev])
    | Except.ok r =>
      let oc' := oc.add_phase_result phase (env.duration scenario phase) r
      if (phase == Phase.check && o.check_only) || !r.isSuccess then
        (Except.ok oc', [ev])
      else
        let rr := run_phase_list env o ws scenario rest oc'
        (rr.1, ev :: rr.2)

/-- The events emitted by run_cargo_phases before any phase runs:
the invocation marker, the log creation, and (for mutants) the diff. -/
def pre_events (scenario : Scenario) (phases : List Phase) : List Event :=
  Event.pipelineRun scenario phases ::
    Event.createLog scenario.displayStr ::
    (match scenario with
     | Scenario.mutant m _ _ => [Event.logDiff m.diff_text]
     | _ => [])

/-- lab.rs run_cargo_phases (lines 172-223): open a scenario log (writing
the mutant diff first for mutant scenarios), then run the given phases in
order until one fails, returning the outcome of the phases run. -/
def run_cargo_phases (env : LabEnv) (o : Options) (ws : Workspace)
    (scenario : Scenario) (phases : List Phase) :
    (Except LabError Outcome) × List Event :=
  let rr := run_phase_list env o ws scenario phases (Outcome.new scenario)
  (rr.1, pre_events scenario phases ++ rr.2)

/-- Modelled from the spec: Mutation::with_mutation_applied (mutate.rs is
not among the sources) — the scoped-resource pattern: perform the text
modification, invoke the supplied body exactly once, and revert the
modification before returning on every exit path (the body's own error,
if any, is propagated afterward). -/
def with_mutation_applied {α : Type} (m : Mutation) (ws : Workspace)
    (body : Workspace → (Except LabError α) × Workspace × List Event) :
    (Except LabError α) × Workspace × List Event :=
  let original := ws m.file_name
  let r := body (setFile ws m.file_name m.mutated_code)
  (r.1, setFile r.2.1 m.file_name original, r.2.2)

/-- lab.rs test_mutation (lines 312-333): run the full phase pipeline in
the build directory with the scenario's mutation applied, reverting it
afterward.  A non-mutant scenario is unreachable. -/
def test_mutation (env : LabEnv) (o : Options) (scenario : Scenario)
    (ws : Workspace) : (Except LabError Outcome) × Workspace × List Event :=
  match scenario with
  | Scenario.mutant m _ _ =>
    with_mutation_applied m ws (fun ws1 =>
      let r := run_cargo_phases env o ws1 scenario Phase.ALL
      (r.1, ws1, r.2))
  | _ => (Except.error LabError.unexpectedScenario, ws, [])

/-- lab.rs check_and_build_source_tree (lines 270-289): run Check (and
Build, unless check-only) directly in the source tree. -/
def check_and_build_source_tree (env : LabEnv) (o : Options) :
    (Except LabError Outcome) × List Event :=
  let phases := if o.check_only then [Phase.check]
    else [Phase.check, Phase.build]
  run_cargo_phases env o env.source_ws Scenario.sourceTree phases

/-- lab.rs test_baseline (lines 295-309): run all three phases on the
unmutated scratch copy. -/
def test_baseline (env : LabEnv) (o : Options) (ws : Workspace) :
    (Except LabError Outcome) × List Event :=
  run_cargo_phases env o ws Scenario.baseline Phase.ALL

/-- The derived test timeout (lab.rs line 109):
max(20 seconds, 5 x the baseline test duration). -/
def auto_timeout (d : Duration) : Duration :=
  max (Duration.secs 20) (5 * d)

/-- lab.rs lines 107-118: if no explicit test timeout was configured and
the baseline measured a test duration, set the derived timeout on the
local options clone. -/
def derive_timeout (o : Options) (baseline : Outcome) : Options :=
  if !o.has_test_timeout then
    match baseline.test_duration with
    | some d => o.set_test_timeout (auto_timeout d)
    | none => o
  else o

/-- lab.rs lines 141-161: the mutant loop.  For each mutation in order,
run test_mutation; on an unrecoverable error stop and surface it;
otherwise append the outcome to the accumulator and rewrite outcomes.json
from the full accumulated state. -/
def mutant_loop (env : LabEnv) (o : Options) (n_mutations : Nat) :
    List Mutation → Nat → Workspace → LabOutcome →
    (Except LabError LabOutcome) × List Event
  | [], _, _, acc => (Except.ok acc, [])
  | m :: rest, i, ws, acc =>
    let r := test_mutation env o (Scenario.mutant m i n_mutations) ws
    match r.1 with
    | Except.error e => (Except.error e, r.2.2)
    | Except.ok outcome =>
      let acc' := acc ++ [outcome]
      let lr := mutant_loop env o n_mutations rest (i + 1) r.2.1 acc'
      (lr.1,
        r.2.2 ++ [Event.outcomeAdded outcome, Event.writeOutcomesJson acc']
          ++ lr.2)

/-- lab.rs lines 97-161, from the scratch copy onward: run the baseline on
the scratch workspace; on baseline failure abort with the partial
accumulator; otherwise derive the test timeout, obtain (and optionally
shuffle) the mutation list, persist mutants.json, and run the mutant
loop. -/
def lab_after_source (env : LabEnv) (o : Options) (acc : LabOutcome) :
    (Except LabError LabOutcome) × List Event :=
  let ws := env.scratch
  let br := test_baseline env o ws
  match br.1 with
  | Except.error e => (Except.error e, br.2)
  | Except.ok outcome =>
    let acc' := acc ++ [outcome]
    if !outcome.success then
      (Except.ok acc', br.2 ++ [Event.outcomeAdded outcome])
    else
      let o' := derive_timeout o outcome
      let mutations := if o'.shuffle then env.shuffle_fn env.mutations
        else env.mutations
      let lr := mutant_loop env o' mutations.length mutations 0 ws acc'
      (lr.1,
        br.2 ++ [Event.outcomeAdded outcome, Event.queryMutations,
          Event.writeMutantsJson mutations] ++ lr.2)

/-- lab.rs test_unmutated_then_all_mutants (lines 65-163).  The caller's
Options value is cloned on entry; the third component of the result is
the caller's own options value at return (the source takes the options by
shared reference and never writes through it).  If configured, the source
tree is checked and built first, aborting (with an Ok partial result) on
failure; then the baseline and the mutant loop run via lab_after_source. -/
def test_unmutated_then_all_mutants (env : LabEnv) (caller_options : Options) :
    (Except LabError LabOutcome) × List Event × Options :=
  let o := caller_options
  if o.build_source then
    let sr := check_and_build_source_tree env o
    match sr.1 with
    | Except.error e => (Except.error e, sr.2, caller_options)
    | Except.ok outcome =>
      if !outcome.success then
        (Except.ok [outcome], sr.2 ++ [Event.outcomeAdded outcome],
          caller_options)
      else
        let ar := lab_after_source env o [outcome]
        (ar.1, sr.2 ++ [Event.outcomeAdded outcome] ++ ar.2, caller_options)
  else
    let ar := lab_after_source env o []
    (ar.1, ar.2, caller_options)

/-! Filesystem model for output.rs (OutputDir) and for the scratch-copy
filter of lab.rs (copy_source_to_scratch). -/

mutual
/-- A filesystem node: a file with byte contents, or a directory. -/
inductive FsNode : Type where
  | file : (content : String) → FsNode
  | dir : (entries : FsEntries) → FsNode
/-- The named entries of a directory, in order. -/
inductive FsEntries : Type where
  | nil : FsEntries
  | cons : (name : String) → (node : FsNode) → (rest : FsEntries) → FsEntries
end

/-- Whether a node is a directory (dir_entry.file_type().is_dir()). -/
def FsNode.isDir : FsNode → Bool
  | FsNode.file _ => false
  | FsNode.dir _ => true

/-- The entry filter of copy_source_to_scratch (lab.rs lines 241-243):
keep everything when copy_target is set; otherwise skip an entry exactly
when it is a directory whose relative path is literally "target".
Relative paths are modelled as component lists. -/
def copy_filter (copy_target : Bool) (is_dir : Bool) (path : List String) :
    Bool :=
  copy_target || !(is_dir && decide (path = ["target"]))

mutual
/-- The recursive copy performed by cp_r in copy_source_to_scratch
(lab.rs lines 225-263), at relative path p: files are copied byte for
byte; a directory's entries are copied in order, each one subject to
copy_filter at its own relative path. -/
def copy_node (ct : Bool) (p : List String) : FsNode → FsNode
  | FsNode.file c => FsNode.file c
  | FsNode.dir es => FsNode.dir (copy_entries ct p es)
/-- Copy the entries of a directory at relative path p, dropping the
entries rejected by copy_filter. -/
def copy_entries (ct : Bool) (p : List String) : FsEntries → FsEntries
  | FsEntries.nil => FsEntries.nil
  | FsEntries.cons name node rest =>
    if copy_filter ct node.isDir (p ++ [name]) then
      FsEntries.cons name (copy_node ct (p ++ [name]) node)
        (copy_entries ct p rest)
    else
      copy_entries ct p rest
end

/-- lab.rs copy_source_to_scratch: copy the source tree into a fresh
temporary directory (the fresh directory is the result; creation of the
TempDir itself is environment setup), filtering with copy_filter rooted
at the empty relative path. -/
def copy_source_to_scratch (o : Options) (source : FsNode) : FsNode :=
  copy_node o.copy_target [] source

/-- The characterization, following the spec's words, of what the
top-level filter keeps: every entry except a directory literally named
"target" at the tree root (a file named "target" is kept). -/
def drop_top_target : FsEntries → FsEntries
  | FsEntries.nil => FsEntries.nil
  | FsEntries.cons name node rest =>
    if node.isDir && decide (name = "target") then drop_top_target rest
    else FsEntries.cons name node (drop_top_target rest)

/-! Model of output.rs OutputDir::new: the parent directory is a map from
entry names to nodes. -/

/-- The parent directory in which the results directory lives. -/
abbrev ParentDir := String → Option FsNode

/-- output.rs OUTDIR_NAME. -/
def outdirName : String := "mutants.out"

/-- output.rs ROTATED_NAME. -/
def rotatedName : String := "mutants.out.old"

/-- fs::remove_dir_all: remove the named entry. -/
def fsRemove (p : ParentDir) (name : String) : ParentDir :=
  fun n => if n = name then none else p n

/-- fs::rename: move the entry at src to dst (dst receives src's node,
src ceases to exist). -/
def fsRename (p : ParentDir) (src dst : String) : ParentDir :=
  fun n => if n = dst then p src else if n = src then none else p n

/-- Create or replace the named entry with the given node. -/
def fsSet (p : ParentDir) (name : String) (node : FsNode) : ParentDir :=
  fun n => if n = name then some node else p n

/-- The fresh results directory created by OutputDir::new: an empty
directory containing an empty log subdirectory (the two fs::create_dir
calls of output.rs lines 38-40). -/
def freshOutDir : FsNode :=
  FsNode.dir (FsEntries.cons "log" (FsNode.dir FsEntries.nil) FsEntries.nil)

/-- output.rs OutputDir::new (lines 28-42): if mutants.out exists, first
delete mutants.out.old if it also exists, then rename mutants.out to
mutants.out.old; finally create a fresh mutants.out with an empty log
subdirectory. -/
def OutputDir.new (p : ParentDir) : ParentDir :=
  let p1 :=
    if (p outdirName).isSome then
      let p0 := if (p rotatedName).isSome then fsRemove p rotatedName else p
      fsRename p0 outdirName rotatedName
    else p
  fsSet p1 outdirName freshOutDir

/-- One full run viewed from the parent directory: create the output
directory, then let the run write arbitrary content (logs, JSON files)
into it. -/
def run_and_write (w : FsNode → FsNode) (p : ParentDir) : ParentDir :=
  let p1 := OutputDir.new p
  match p1 outdirName with
  | some node => fsSet p1 outdirName (w node)
  | none => p1

/-- A sequence of runs in the same parent directory, each with its own
writer. -/
def run_sequence : List (FsNode → FsNode) → ParentDir → ParentDir
  | [], p => p
  | w :: rest, p => run_sequence rest (run_and_write w p)

/-! Claim-level observation helpers over event traces. -/

/-- Is this event an outcomes.json rewrite? -/
def Event.isWriteOutcomes : Event → Bool
  | Event.writeOutcomesJson _ => true
  | _ => false

/-- Is this event a mutants.json write? -/
def Event.isWriteMutants : Event → Bool
  | Event.writeMutantsJson _ => true
  | _ => false

/-- Is this event an append to the LabOutcome accumulator? -/
def Event.isOutcomeAdded : Event → Bool
  | Event.outcomeAdded _ => true
  | _ => false

/-- Is this event a query of the Mutation Source for the mutation list? -/
def Event.isQueryMutations : Event → Bool
  | Event.queryMutations => true
  | _ => false

/-- Is this event a phase-pipeline invocation? -/
def Event.isPipelineRun : Event → Bool
  | Event.pipelineRun _ _ => true
  | _ => false

/-- Is this event a phase-pipeline invocation for a mutant scenario? -/
def Event.isMutantPipelineRun : Event → Bool
  | Event.pipelineRun sc _ => sc.isMutant
  | _ => false

/-- The phases of the cargo invocations recorded in a trace, in order. -/
def run_phases_of (evs : List Event) : List Phase :=
  evs.filterMap (fun e =>
    match e with
    | Event.runPhase _ p _ _ => some p
    | _ => none)

/-- Did the phase's build-tool invocation complete without an
unrecoverable error and report success? -/
def phase_ok (env : LabEnv) (ws : Workspace) (sc : Scenario) (p : Phase) :
    Bool :=
  match env.result ws sc p with
  | Except.ok r => r.isSuccess
  | Except.error _ => false

/-- Is this event an accumulator append or an outcomes.json rewrite
(the events the persistence invariant tracks)? -/
def Event.isTracking : Event → Bool
  | Event.outcomeAdded _ => true
  | Event.writeOutcomesJson _ => true
  | _ => false

/-- Over the subsequence of tracking events: every outcomes.json rewrite
carries exactly the outcomes accumulated (appended) before it — a
complete, consistent snapshot. -/
def writes_are_snapshots : LabOutcome → List Event → Prop
  | _, [] => True
  | seen, Event.outcomeAdded oc :: rest =>
    writes_are_snapshots (seen ++ [oc]) rest
  | seen, Event.writeOutcomesJson lo :: rest =>
    lo = seen ∧ writes_are_snapshots seen rest
  | seen, _ :: rest => writes_are_snapshots seen rest

/-- Over the subsequence of tracking events: every append of a mutant
outcome is immediately followed by an outcomes.json rewrite, appends of
non-mutant outcomes are not, and every rewrite is preceded by a mutant
append. -/
def good_tracking : List Event → Prop
  | [] => True
  | Event.outcomeAdded oc :: rest =>
    if oc.scenario.isMutant then
      match rest with
      | Event.writeOutcomesJson _ :: rest2 => good_tracking rest2
      | _ => False
    else good_tracking rest
  | _ => False

/-- The content of an outcomes.json rewrite, when the event is one. -/
def Event.writeContent : Event → Option LabOutcome
  | Event.writeOutcomesJson lo => some lo
  | _ => none

/-- The successive complete states written to outcomes.json by the mutant
loop when it starts from accumulator acc and appends these outcomes. -/
def snapshots (acc : LabOutcome) : List Outcome → List LabOutcome
  | [] => []
  | oc :: rest => (acc ++ [oc]) :: snapshots (acc ++ [oc]) rest

/-! Concrete inputs used by witness and counterexample theorems. -/

/-- A concrete empty scratch workspace. -/
def wsEmpty : Workspace := fun _ => ""

/-- A concrete sample mutation. -/
def mutA : Mutation :=
  { file_name := "src/lib.rs", mutated_code := "mutated code",
    diff_text := "sample diff", display := "src/lib.rs: replace f" }

/-- A concrete options value: build the source tree first, no explicit
timeout, no shuffling, no check-only. -/
def optsStd : Options :=
  { build_source := true, copy_target := false, check_only := false,
    shuffle := false, test_timeout := none,
    additional_cargo_test_args := [], show_times := false }

/-- optsStd without the source-tree scenario. -/
def optsNoSrc : Options := { optsStd with build_source := false }

/-- optsStd in check-only mode. -/
def optsCheckOnly : Options := { optsStd with check_only := true }

/-- A concrete environment where every phase of every scenario succeeds;
the test phase takes 1 second, other phases 2 milliseconds. -/
def envAllOk (ms : List Mutation) : LabEnv :=
  { result := fun _ _ _ => Except.ok PhaseResult.success
    duration := fun _ ph => if ph = Phase.test then Duration.secs 1 else 2
    source_ws := wsEmpty
    scratch := wsEmpty
    mutations := ms
    shuffle_fn := fun l => l }

/-- A concrete environment where the baseline's Test phase fails and
everything else succeeds. -/
def envBaseFail : LabEnv :=
  { envAllOk [mutA] with
    result := fun _ sc ph =>
      match sc, ph with
      | Scenario.baseline, Phase.test => Except.ok PhaseResult.failure
      | _, _ => Except.ok PhaseResult.success }

/-- A concrete environment with one mutation that is caught: the mutant
scenario's Test phase fails while everything else succeeds. -/
def envMutantCaught : LabEnv :=
  { envAllOk [mutA] with
    result := fun _ sc ph =>
      match sc, ph with
      | Scenario.mutant _ _ _, Phase.test => Except.ok PhaseResult.failure
      | _, _ => Except.ok PhaseResult.success }

/-- A concrete environment where every Check phase fails. -/
def envCheckFail : LabEnv :=
  { envAllOk [] with
    result := fun _ _ ph =>
      match ph with
      | Phase.check => Except.ok PhaseResult.failure
      | _ => Except.ok PhaseResult.success }

/-- A concrete empty parent directory. -/
def pEmpty : ParentDir := fun _ => none

/-- A concrete run writer that leaves the output directory as created. -/
def writerId : FsNode → FsNode := fun n => n

/-- A concrete run writer that replaces the output directory's content. -/
def writerX : FsNode → FsNode := fun _ => FsNode.file "x"

/-- A concrete source tree with a top-level target directory and a src
directory. -/
def sampleEntries : FsEntries :=
  FsEntries.cons "target" (FsNode.dir FsEntries.nil)
    (FsEntries.cons "src"
      (FsNode.dir
        (FsEntries.cons "lib.rs" (FsNode.file "fn f()") FsEntries.nil))
      FsEntries.nil)

/-- The outcome of a fully successful source-tree scenario under
envBaseFail's durations. -/
def srcOutcomeOk : Outcome :=
  ⟨Scenario.sourceTree, [⟨Phase.check, 2, PhaseResult.success⟩,
    ⟨Phase.build, 2, PhaseResult.success⟩]⟩

/-- The outcome of a baseline scenario whose Test phase fails under
envBaseFail's durations. -/
def baseOutcomeFail : Outcome :=
  ⟨Scenario.baseline, [⟨Phase.check, 2, PhaseResult.success⟩,
    ⟨Phase.build, 2, PhaseResult.success⟩,
    ⟨Phase.test, Duration.secs 1, PhaseResult.failure⟩]⟩

/-! Lemmas about the scratch-copy filter (claim C9). -/

theorem copy_filter_nonroot (d : Bool) (p : List String) (name : String)
    (h : p ≠ []) : copy_filter false d (p ++ [name]) = true := by
  have hne : p ++ [name] ≠ ["target"] := by
    intro hEq
    have hlen := congrArg List.length hEq
    simp [List.length_append] at hlen
    exact h hlen
  simp [copy_filter, hne]

mutual
theorem copy_node_id : (n : FsNode) → (p : List String) →
    copy_node true p n = n
  | FsNode.file _, _ => rfl
  | FsNode.dir es, p => by
    simp only [copy_node]
    rw [copy_entries_id es p]
theorem copy_entries_id : (es : FsEntries) → (p : List String) →
    copy_entries true p es = es
  | FsEntries.nil, _ => rfl
  | FsEntries.cons name node rest, p => by
    show FsEntries.cons name (copy_node true (p ++ [name]) node)
        (copy_entries true p rest) = FsEntries.cons name node rest
    rw [copy_node_id node (p ++ [name]), copy_entries_id rest p]
end

mutual
theorem copy_node_nonroot : (n : FsNode) → (p : List String) → p ≠ [] →
    copy_node false p n = n
  | FsNode.file _, _, _ => rfl
  | FsNode.dir es, p, h => by
    simp only [copy_node]
    rw [copy_entries_nonroot es p h]
theorem copy_entries_nonroot : (es : FsEntries) → (p : List String) →
    p ≠ [] → copy_entries false p es = es
  | FsEntries.nil, _, _ => rfl
  | FsEntries.cons name node rest, p, h => by
    have hf : copy_filter false node.isDir (p ++ [name]) = true :=
      copy_filter_nonroot node.isDir p name h
    have h1 : copy_node false (p ++ [name]) node = node :=
      copy_node_nonroot node (p ++ [name]) (by simp)
    have h2 : copy_entries false p rest = rest :=
      copy_entries_nonroot rest p h
    simp only [copy_entries, hf, if_true, h1, h2]
end

theorem copy_entries_root : (es : FsEntries) →
    copy_entries false [] es = drop_top_target es
  | FsEntries.nil => rfl
  | FsEntries.cons name node rest => by
    have ih := copy_entries_root rest
    have hcn : copy_node false [name] node = node :=
      copy_node_nonroot node [name] (by simp)
    by_cases hd : node.isDir = true
    · by_cases hn : name = "target"
      · simp [copy_entries, drop_top_target, copy_filter, hd, hn, ih]
      · simp [copy_entries, drop_top_target, copy_filter, hd, hn, ih, hcn]
    · simp only [Bool.not_eq_true] at hd
      simp [copy_entries, drop_top_target, copy_filter, hd, ih, hcn]

/-- C9: copy_source_to_scratch copies every file of the source tree
recursively, preserving relative structure; when copy_target is disabled
exactly the top-level entries that are directories literally named
"target" are skipped (a top-level file named "target" and nested "target"
directories are kept, by drop_top_target's definition together with the
identity of the copy below top level); when copy_target is enabled
nothing is skipped. -/
theorem copy_source_to_scratch_spec :
    (∀ (o : Options) (source : FsNode), o.copy_target = true →
      copy_source_to_scratch o source = source)
    ∧ (∀ (o : Options) (es : FsEntries), o.copy_target = false →
      copy_source_to_scratch o (FsNode.dir es) =
        FsNode.dir (drop_top_target es)) := by
  constructor
  · intro o source h
    rw [copy_source_to_scratch, h]
    exact copy_node_id source []
  · intro o es h
    rw [copy_source_to_scratch, h]
    simp only [copy_node]
    rw [copy_entries_root es]

/-- Witness for C9 at a concrete source tree containing a top-level
target directory. -/
theorem copy_source_to_scratch_spec_witness :
    (copy_source_to_scratch { optsStd with copy_target := true }
        (FsNode.dir sampleEntries) = FsNode.dir sampleEntries)
    ∧ copy_source_to_scratch optsStd (FsNode.dir sampleEntries) =
        FsNode.dir (drop_top_target sampleEntries) :=
  ⟨copy_source_to_scratch_spec.1 { optsStd with copy_target := true }
      (FsNode.dir sampleEntries) rfl,
    copy_source_to_scratch_spec.2 optsStd sampleEntries rfl⟩

/-! Lemmas about output-directory rotation (claim C8). -/

theorem outputDir_new_outdir (p : ParentDir) :
    OutputDir.new p outdirName = some freshOutDir := by
  simp [OutputDir.new, fsSet]

theorem outputDir_new_rotated (p : ParentDir) :
    OutputDir.new p rotatedName =
      if (p outdirName).isSome then p outdirName else p rotatedName := by
  have hne : rotatedName ≠ outdirName := by decide
  have hne' : outdirName ≠ rotatedName := by decide
  by_cases h : (p outdirName).isSome
  · by_cases h2 : (p rotatedName).isSome
    · simp [OutputDir.new, fsSet, fsRename, fsRemove, h, h2, hne, hne']
    · simp [OutputDir.new, fsSet, fsRename, fsRemove, h, h2, hne, hne']
  · simp [OutputDir.new, fsSet, h, hne]

theorem outputDir_new_frame (p : ParentDir) (n : String)
    (h1 : n ≠ outdirName) (h2 : n ≠ rotatedName) :
    OutputDir.new p n = p n := by
  by_cases h : (p outdirName).isSome
  · by_cases hr : (p rotatedName).isSome
    · simp [OutputDir.new, fsSet, fsRename, fsRemove, h, hr, h1, h2]
    · simp [OutputDir.new, fsSet, fsRename, fsRemove, h, hr, h1, h2]
  · simp [OutputDir.new, fsSet, h, h1]

theorem run_and_write_outdir (w : FsNode → FsNode) (p : ParentDir) :
    run_and_write w p outdirName = some (w freshOutDir) := by
  simp [run_and_write, outputDir_new_outdir, fsSet]

theorem run_and_write_rotated (w : FsNode → FsNode) (p : ParentDir) :
    run_and_write w p rotatedName =
      if (p outdirName).isSome then p outdirName else p rotatedName := by
  have hne : rotatedName ≠ outdirName := by decide
  simp [run_and_write, outputDir_new_outdir, fsSet, hne,
    outputDir_new_rotated]

theorem run_and_write_frame (w : FsNode → FsNode) (p : ParentDir)
    (n : String) (h1 : n ≠ outdirName) (h2 : n ≠ rotatedName) :
    run_and_write w p n = p n := by
  simp [run_and_write, outputDir_new_outdir, fsSet, h1,
    outputDir_new_frame p n h1 h2]

theorem run_sequence_spec :
    ∀ (ws : List (FsNode → FsNode)) (f g : FsNode → FsNode) (p : ParentDir),
    run_sequence (ws ++ [f, g]) p outdirName = some (g freshOutDir)
    ∧ run_sequence (ws ++ [f, g]) p rotatedName = some (f freshOutDir)
    ∧ ∀ n, n ≠ outdirName → n ≠ rotatedName →
        run_sequence (ws ++ [f, g]) p n = p n
  | [], f, g, p => by
    refine ⟨?_, ?_, ?_⟩
    · simp [run_sequence, run_and_write_outdir]
    · simp [run_sequence, run_and_write_rotated, run_and_write_outdir]
    · intro n h1 h2
      simp [run_sequence, run_and_write_frame _ _ n h1 h2]
  | w :: ws, f, g, p => by
    have ih := run_sequence_spec ws f g (run_and_write w p)
    exact ⟨ih.1, ih.2.1, fun n h1 h2 =>
      (ih.2.2 n h1 h2).trans (run_and_write_frame w p n h1 h2)⟩

/-- C8: OutputDir::new first deletes a stale rotated-aside directory
(when both it and the results directory exist), then renames the results
directory aside, then creates a fresh empty results directory containing
an empty log subdirectory; consequently, over any sequence of successful
creations in the same parent (with arbitrary writes into the current
results directory between creations), at most the two canonical names
hold run content, the rotated name holds exactly the immediately
preceding run's content, and all older content is gone. -/
theorem outputDir_rotation (p : ParentDir) :
    (OutputDir.new p outdirName = some freshOutDir)
    ∧ (OutputDir.new p rotatedName =
        if (p outdirName).isSome then p outdirName else p rotatedName)
    ∧ (∀ n, n ≠ outdirName → n ≠ rotatedName → OutputDir.new p n = p n)
    ∧ (∀ (ws : List (FsNode → FsNode)) (f g : FsNode → FsNode),
        run_sequence (ws ++ [f, g]) p outdirName = some (g freshOutDir)
        ∧ run_sequence (ws ++ [f, g]) p rotatedName = some (f freshOutDir)
        ∧ ∀ n, n ≠ outdirName → n ≠ rotatedName →
            run_sequence (ws ++ [f, g]) p n = p n) :=
  ⟨outputDir_new_outdir p, outputDir_new_rotated p,
    fun n h1 h2 => outputDir_new_frame p n h1 h2,
    fun ws f g => run_sequence_spec ws f g p⟩

/-! Basic lemmas about the phase pipeline. -/

theorem setFile_revert (ws : Workspace) (f c : String) :
    setFile (setFile ws f c) f (ws f) = ws := by
  funext x
  by_cases h : x = f
  · simp [setFile, h]
  · simp [setFile, h]

theorem run_phases_of_append (a b : List Event) :
    run_phases_of (a ++ b) = run_phases_of a ++ run_phases_of b := by
  simp [run_phases_of, List.filterMap_append]

theorem run_phases_of_pre (sc : Scenario) (ps : List Phase) :
    run_phases_of (pre_events sc ps) = [] := by
  cases sc <;> simp [pre_events, run_phases_of]

theorem rpl_events_mem (env : LabEnv) (o : Options) (ws : Workspace)
    (sc : Scenario) : ∀ (ps : List Phase) (oc : Outcome),
    ∀ e ∈ (run_phase_list env o ws sc ps oc).2,
      ∃ p, e = Event.runPhase sc p (cargo_args o p) (phase_timeout o p)
  | [], _, e, he => by simp [run_phase_list] at he
  | p :: ps, oc, e, he => by
    simp only [run_phase_list] at he
    split at he
    · simp only [List.mem_singleton] at he
      exact ⟨p, he⟩
    · split at he
      · simp only [List.mem_singleton] at he
        exact ⟨p, he⟩
      · rcases List.mem_cons.mp he with h1 | h2
        · exact ⟨p, h1⟩
        · exact rpl_events_mem env o ws sc ps _ e h2

theorem rcp_events_mem (env : LabEnv) (o : Options) (ws : Workspace)
    (sc : Scenario) (ps : List Phase) :
    ∀ e ∈ (run_cargo_phases env o ws sc ps).2,
      e = Event.pipelineRun sc ps ∨ (∃ s, e = Event.createLog s)
      ∨ (∃ d, e = Event.logDiff d)
      ∨ ∃ p, e = Event.runPhase sc p (cargo_args o p) (phase_timeout o p) := by
  intro e he
  simp only [run_cargo_phases] at he
  rw [List.mem_append] at he
  rcases he with hpre | hrun
  · cases sc with
    | sourceTree =>
      simp only [pre_events, List.mem_cons, List.not_mem_nil, or_false]
        at hpre
      rcases hpre with h | h
      · exact Or.inl h
      · exact Or.inr (Or.inl ⟨_, h⟩)
    | baseline =>
      simp only [pre_events, List.mem_cons, List.not_mem_nil, or_false]
        at hpre
      rcases hpre with h | h
      · exact Or.inl h
      · exact Or.inr (Or.inl ⟨_, h⟩)
    | mutant m i n =>
      simp only [pre_events, List.mem_cons, List.not_mem_nil, or_false]
        at hpre
      rcases hpre with h | h | h
      · exact Or.inl h
      · exact Or.inr (Or.inl ⟨_, h⟩)
      · exact Or.inr (Or.inr (Or.inl ⟨_, h⟩))
  · exact Or.inr (Or.inr (Or.inr
      (rpl_events_mem env o ws sc ps (Outcome.new sc) e hrun)))

theorem rcp_event_flags (env : LabEnv) (o : Options) (ws : Workspace)
    (sc : Scenario) (ps : List Phase) :
    ∀ e ∈ (run_cargo_phases env o ws sc ps).2,
      Event.isTracking e = false ∧ Event.isQueryMutations e = false
      ∧ Event.isWriteMutants e = false ∧ Event.writeContent e = none
      ∧ (Event.isMutantPipelineRun e = true → sc.isMutant = true)
      ∧ Event.isOutcomeAdded e = false
      ∧ Event.isWriteOutcomes e = false := by
  intro e he
  rcases rcp_events_mem env o ws sc ps e he with h | ⟨s, h⟩ | ⟨d, h⟩ | ⟨p, h⟩
    <;> subst h
    <;> simp [Event.isTracking, Event.isQueryMutations, Event.isWriteMutants,
          Event.writeContent, Event.isMutantPipelineRun, Event.isOutcomeAdded,
          Event.isWriteOutcomes]

theorem rpl_scenario (env : LabEnv) (o : Options) (ws : Workspace)
    (sc : Scenario) : ∀ (ps : List Phase) (oc res : Outcome),
    (run_phase_list env o ws sc ps oc).1 = Except.ok res →
    res.scenario = oc.scenario
  | [], oc, res, h => by
    simp only [run_phase_list, Except.ok.injEq] at h
    rw [← h]
  | p :: ps, oc, res, h => by
    simp only [run_phase_list] at h
    split at h
    · simp at h
    · split at h
      · simp only [Except.ok.injEq] at h
        rw [← h]
        simp [Outcome.add_phase_result]
      · have := rpl_scenario env o ws sc ps _ res h
        rw [this]
        simp [Outcome.add_phase_result]

theorem rcp_scenario (env : LabEnv) (o : Options) (ws : Workspace)
    (sc : Scenario) (ps : List Phase) (res : Outcome)
    (h : (run_cargo_phases env o ws sc ps).1 = Except.ok res) :
    res.scenario = sc := by
  simp only [run_cargo_phases] at h
  exact rpl_scenario env o ws sc ps (Outcome.new sc) res h

/-- C7: with check-only enabled, a scenario requested with all three
phases executes only Check, the returned Outcome records exactly the
Check phase result, and the outcome's overall success is Check's own
success. -/
theorem check_only_single_phase (env : LabEnv) (o : Options)
    (ws : Workspace) (sc : Scenario) (r : PhaseResult)
    (hco : o.check_only = true)
    (hres : env.result ws sc Phase.check = Except.ok r) :
    (run_cargo_phases env o ws sc Phase.ALL).1 =
      Except.ok ⟨sc, [⟨Phase.check, env.duration sc Phase.check, r⟩]⟩
    ∧ run_phases_of (run_cargo_phases env o ws sc Phase.ALL).2 =
        [Phase.check]
    ∧ ∀ oc, (run_cargo_phases env o ws sc Phase.ALL).1 = Except.ok oc →
        oc.success = r.isSuccess := by
  have heval : run_phase_list env o ws sc Phase.ALL (Outcome.new sc) =
      (Except.ok ⟨sc, [⟨Phase.check, env.duration sc Phase.check, r⟩]⟩,
        [Event.runPhase sc Phase.check (cargo_args o Phase.check)
          (phase_timeout o Phase.check)]) := by
    simp [Phase.ALL, run_phase_list, hres, hco, Outcome.new,
      Outcome.add_phase_result]
  refine ⟨?_, ?_, ?_⟩
  · simp only [run_cargo_phases, heval]
  · simp only [run_cargo_phases, heval]
    rw [run_phases_of_append, run_phases_of_pre]
    simp [run_phases_of]
  · intro oc hoc
    simp only [run_cargo_phases, heval, Except.ok.injEq] at hoc
    rw [← hoc]
    simp [Outcome.success, PhaseResult.isSuccess]

theorem run_phases_of_cons_runPhase (sc : Scenario) (p : Phase)
    (a : List String) (t : Duration) (evs : List Event) :
    run_phases_of (Event.runPhase sc p a t :: evs) = p :: run_phases_of evs := by
  simp [run_phases_of]

theorem rpl_early_exit (env : LabEnv) (o : Options) (ws : Workspace)
    (sc : Scenario) (hco : o.check_only = false) :
    (ps : List Phase) → (oc : Outcome) →
    (∃ rest, ps = run_phases_of (run_phase_list env o ws sc ps oc).2 ++ rest)
    ∧ (∀ p ∈ (run_phases_of (run_phase_list env o ws sc ps oc).2).dropLast,
        phase_ok env ws sc p = true)
    ∧ (run_phases_of (run_phase_list env o ws sc ps oc).2 ≠ ps →
        ∃ q, (run_phases_of (run_phase_list env o ws sc ps oc).2).getLast? =
          some q ∧ phase_ok env ws sc q = false)
    ∧ (∀ res, (run_phase_list env o ws sc ps oc).1 = Except.ok res →
        res.phase_results.map PhaseEntry.phase =
          oc.phase_results.map PhaseEntry.phase ++
            run_phases_of (run_phase_list env o ws sc ps oc).2)
  | [], oc => by
    refine ⟨⟨[], by simp [run_phase_list, run_phases_of]⟩,
      by simp [run_phase_list, run_phases_of],
      by simp [run_phase_list, run_phases_of], ?_⟩
    intro res h
    simp only [run_phase_list, Except.ok.injEq] at h
    simp [run_phase_list, run_phases_of, ← h]
  | p :: ps, oc => by
    cases hr : env.result ws sc p with
    | error e =>
      have heval : run_phase_list env o ws sc (p :: ps) oc =
          (Except.error e, [Event.runPhase sc p (cargo_args o p)
            (phase_timeout o p)]) := by
        simp [run_phase_list, hr]
      refine ⟨⟨ps, ?_⟩, ?_, ?_, ?_⟩
      · simp [heval, run_phases_of]
      · simp [heval, run_phases_of]
      · intro _
        refine ⟨p, ?_, ?_⟩
        · simp [heval, run_phases_of]
        · simp [phase_ok, hr]
      · intro res h
        rw [heval] at h
        simp at h
    | ok r =>
      by_cases hs : r.isSuccess = true
      · have heval : run_phase_list env o ws sc (p :: ps) oc =
            ((run_phase_list env o ws sc ps
                (oc.add_phase_result p (env.duration sc p) r)).1,
              Event.runPhase sc p (cargo_args o p) (phase_timeout o p) ::
                (run_phase_list env o ws sc ps
                  (oc.add_phase_result p (env.duration sc p) r)).2) := by
          simp [run_phase_list, hr, hco, hs]
        have ih := rpl_early_exit env o ws sc hco ps
          (oc.add_phase_result p (env.duration sc p) r)
        refine ⟨?_, ?_, ?_, ?_⟩
        · rcases ih.1 with ⟨rest, hrest⟩
          refine ⟨rest, ?_⟩
          simp only [heval, run_phases_of_cons_runPhase]
          rw [List.cons_append, ← hrest]
        · intro q hq
          simp only [heval, run_phases_of_cons_runPhase] at hq
          cases hex : run_phases_of (run_phase_list env o ws sc ps
              (oc.add_phase_result p (env.duration sc p) r)).2 with
          | nil => rw [hex] at hq; simp at hq
          | cons a l =>
            rw [hex] at hq
            rw [List.dropLast_cons₂] at hq
            rcases List.mem_cons.mp hq with h1 | h2
            · rw [h1]
              simp [phase_ok, hr, hs]
            · exact ih.2.1 q (by rw [hex]; exact h2)
        · intro hne
          simp only [heval, run_phases_of_cons_runPhase] at hne ⊢
          have hne' : run_phases_of (run_phase_list env o ws sc ps
              (oc.add_phase_result p (env.duration sc p) r)).2 ≠ ps :=
            fun h => hne (by rw [h])
          rcases ih.2.2.1 hne' with ⟨q, hq1, hq2⟩
          cases hex : run_phases_of (run_phase_list env o ws sc ps
              (oc.add_phase_result p (env.duration sc p) r)).2 with
          | nil => rw [hex] at hq1; simp at hq1
          | cons a l =>
            rw [hex] at hq1
            exact ⟨q, by rw [List.getLast?_cons_cons]; exact hq1, hq2⟩
        · intro res h
          rw [heval] at h
          have := ih.2.2.2 res h
          simp only [heval, run_phases_of_cons_runPhase]
          rw [this]
          simp [Outcome.add_phase_result, List.map_append]
      · have hs' : r.isSuccess = false := by
          cases hv : r.isSuccess
          · rfl
          · exact absurd hv hs
        have heval : run_phase_list env o ws sc (p :: ps) oc =
            (Except.ok (oc.add_phase_result p (env.duration sc p) r),
              [Event.runPhase sc p (cargo_args o p)
                (phase_timeout o p)]) := by
          simp [run_phase_list, hr, hco, hs']
        refine ⟨⟨ps, ?_⟩, ?_, ?_, ?_⟩
        · simp [heval, run_phases_of]
        · simp [heval, run_phases_of]
        · intro _
          refine ⟨p, ?_, ?_⟩
          · simp [heval, run_phases_of]
          · simp [phase_ok, hr, hs']
        · intro res h
          rw [heval] at h
          simp only [Except.ok.injEq] at h
          rw [← h]
          simp [heval, Outcome.add_phase_result, List.map_append,
            run_phases_of]

theorem test_mutation_eq (env : LabEnv) (o : Options) (m : Mutation)
    (i n : Nat) (ws : Workspace) :
    test_mutation env o (Scenario.mutant m i n) ws =
      ((run_cargo_phases env o (setFile ws m.file_name m.mutated_code)
          (Scenario.mutant m i n) Phase.ALL).1,
        ws,
        (run_cargo_phases env o (setFile ws m.file_name m.mutated_code)
          (Scenario.mutant m i n) Phase.ALL).2) := by
  simp only [test_mutation, with_mutation_applied]
  rw [setFile_revert]

theorem rpl_countP_pipeline (env : LabEnv) (o : Options) (ws : Workspace)
    (sc : Scenario) (ps : List Phase) (oc : Outcome) :
    (run_phase_list env o ws sc ps oc).2.countP Event.isPipelineRun = 0 := by
  rw [List.countP_eq_zero]
  intro e he
  rcases rpl_events_mem env o ws sc ps oc e he with ⟨p, rfl⟩
  simp [Event.isPipelineRun]

theorem rcp_countP_pipeline (env : LabEnv) (o : Options) (ws : Workspace)
    (sc : Scenario) (ps : List Phase) :
    (run_cargo_phases env o ws sc ps).2.countP Event.isPipelineRun = 1 := by
  simp only [run_cargo_phases]
  rw [List.countP_append, rpl_countP_pipeline]
  cases sc <;> simp [pre_events, Event.isPipelineRun, List.countP_cons]

/-- C1: test_mutation invokes the phase pipeline exactly once, the
invocation runs on the workspace with the mutation's text change applied,
its result (including any unrecoverable error the body raises, and any
failing or timed-out phase outcome) is passed through, and the workspace
returned is byte-identical to the workspace before the mutation was
applied — for every environment behavior. -/
theorem test_mutation_revert_once (env : LabEnv) (o : Options)
    (m : Mutation) (i n : Nat) (ws : Workspace) :
    (test_mutation env o (Scenario.mutant m i n) ws).2.1 = ws
    ∧ (test_mutation env o (Scenario.mutant m i n) ws).2.2.countP
        Event.isPipelineRun = 1
    ∧ (test_mutation env o (Scenario.mutant m i n) ws).2.2.head? =
        some (Event.pipelineRun (Scenario.mutant m i n) Phase.ALL)
    ∧ (test_mutation env o (Scenario.mutant m i n) ws).1 =
        (run_cargo_phases env o (setFile ws m.file_name m.mutated_code)
          (Scenario.mutant m i n) Phase.ALL).1 := by
  rw [test_mutation_eq]
  exact ⟨rfl,
    rcp_countP_pipeline env o (setFile ws m.file_name m.mutated_code)
      (Scenario.mutant m i n) Phase.ALL, rfl, rfl⟩

/-! Success-path lemmas. -/

theorem add_success_success (oc : Outcome) (p : Phase) (d : Duration) :
    (oc.add_phase_result p d PhaseResult.success).success = oc.success := by
  simp [Outcome.add_phase_result, Outcome.success, List.all_append,
    PhaseResult.isSuccess]

theorem rpl_ok_success (env : LabEnv) (o : Options) (ws : Workspace)
    (sc : Scenario)
    (hres : ∀ p, env.result ws sc p = Except.ok PhaseResult.success) :
    (ps : List Phase) → (oc : Outcome) → ∃ res,
      (run_phase_list env o ws sc ps oc).1 = Except.ok res
      ∧ res.success = oc.success ∧ res.scenario = oc.scenario
  | [], oc => ⟨oc, by simp [run_phase_list], rfl, rfl⟩
  | p :: ps, oc => by
    have hr := hres p
    by_cases hstop : (p == Phase.check && o.check_only) = true
    · have heval : run_phase_list env o ws sc (p :: ps) oc =
          (Except.ok (oc.add_phase_result p (env.duration sc p)
              PhaseResult.success),
            [Event.runPhase sc p (cargo_args o p) (phase_timeout o p)]) := by
        simp [run_phase_list, hr, hstop, PhaseResult.isSuccess]
      exact ⟨_, by rw [heval], by rw [add_success_success],
        by simp [Outcome.add_phase_result]⟩
    · have hstop' : (p == Phase.check && o.check_only) = false := by
        cases hv : (p == Phase.check && o.check_only)
        · rfl
        · exact absurd hv hstop
      have heval : run_phase_list env o ws sc (p :: ps) oc =
          ((run_phase_list env o ws sc ps
              (oc.add_phase_result p (env.duration sc p)
                PhaseResult.success)).1,
            Event.runPhase sc p (cargo_args o p) (phase_timeout o p) ::
              (run_phase_list env o ws sc ps
                (oc.add_phase_result p (env.duration sc p)
                  PhaseResult.success)).2) := by
        simp [run_phase_list, hr, hstop', PhaseResult.isSuccess]
      rcases rpl_ok_success env o ws sc hres ps
          (oc.add_phase_result p (env.duration sc p) PhaseResult.success)
        with ⟨res, h1, h2, h3⟩
      refine ⟨res, by rw [heval]; exact h1, ?_, ?_⟩
      · rw [h2, add_success_success]
      · rw [h3]; simp [Outcome.add_phase_result]

theorem rcp_ok_success (env : LabEnv) (o : Options) (ws : Workspace)
    (sc : Scenario)
    (hres : ∀ p, env.result ws sc p = Except.ok PhaseResult.success)
    (ps : List Phase) : ∃ res,
      (run_cargo_phases env o ws sc ps).1 = Except.ok res
      ∧ res.success = true ∧ res.scenario = sc := by
  rcases rpl_ok_success env o ws sc hres ps (Outcome.new sc)
    with ⟨res, h1, h2, h3⟩
  exact ⟨res, h1, by rw [h2]; rfl, h3⟩

theorem rpl_ok_noerror (env : LabEnv) (o : Options) (ws : Workspace)
    (sc : Scenario)
    (herr : ∀ p, ∃ r, env.result ws sc p = Except.ok r) :
    (ps : List Phase) → (oc : Outcome) → ∃ res,
      (run_phase_list env o ws sc ps oc).1 = Except.ok res
  | [], oc => ⟨oc, by simp [run_phase_list]⟩
  | p :: ps, oc => by
    rcases herr p with ⟨r, hr⟩
    by_cases hstop : ((p == Phase.check && o.check_only) || !r.isSuccess)
        = true
    · exact ⟨oc.add_phase_result p (env.duration sc p) r, by
        simp [run_phase_list, hr, hstop]⟩
    · have hstop' : ((p == Phase.check && o.check_only) || !r.isSuccess)
          = false := by
        cases hv : ((p == Phase.check && o.check_only) || !r.isSuccess)
        · rfl
        · exact absurd hv hstop
      rcases rpl_ok_noerror env o ws sc herr ps
          (oc.add_phase_result p (env.duration sc p) r) with ⟨res, hres⟩
      refine ⟨res, ?_⟩
      have heval : (run_phase_list env o ws sc (p :: ps) oc).1 =
          (run_phase_list env o ws sc ps
            (oc.add_phase_result p (env.duration sc p) r)).1 := by
        simp [run_phase_list, hr, hstop']
      rw [heval, hres]

theorem rcp_ok_noerror (env : LabEnv) (o : Options) (ws : Workspace)
    (sc : Scenario)
    (herr : ∀ p, ∃ r, env.result ws sc p = Except.ok r)
    (ps : List Phase) : ∃ res,
      (run_cargo_phases env o ws sc ps).1 = Except.ok res := by
  rcases rpl_ok_noerror env o ws sc herr ps (Outcome.new sc) with ⟨res, h⟩
  exact ⟨res, h⟩

theorem rcp_writeContent_nil (env : LabEnv) (o : Options) (ws : Workspace)
    (sc : Scenario) (ps : List Phase) :
    (run_cargo_phases env o ws sc ps).2.filterMap Event.writeContent = [] := by
  rw [List.filterMap_eq_nil_iff]
  intro e he
  exact ((rcp_event_flags env o ws sc ps e he).2.2.2).1

theorem rpl_full_success (env : LabEnv) (o : Options) (ws : Workspace)
    (sc : Scenario) (hco : o.check_only = false)
    (hres : ∀ p, env.result ws sc p = Except.ok PhaseResult.success) :
    (ps : List Phase) → (oc : Outcome) →
    run_phase_list env o ws sc ps oc =
      (Except.ok ⟨oc.scenario, oc.phase_results ++
          ps.map (fun p => ⟨p, env.duration sc p, PhaseResult.success⟩)⟩,
        ps.map (fun p => Event.runPhase sc p (cargo_args o p)
          (phase_timeout o p)))
  | [], oc => by simp [run_phase_list]
  | p :: ps, oc => by
    have heval : run_phase_list env o ws sc (p :: ps) oc =
        ((run_phase_list env o ws sc ps
            (oc.add_phase_result p (env.duration sc p)
              PhaseResult.success)).1,
          Event.runPhase sc p (cargo_args o p) (phase_timeout o p) ::
            (run_phase_list env o ws sc ps
              (oc.add_phase_result p (env.duration sc p)
                PhaseResult.success)).2) := by
      simp [run_phase_list, hres p, hco, PhaseResult.isSuccess]
    rw [heval, rpl_full_success env o ws sc hco hres ps
      (oc.add_phase_result p (env.duration sc p) PhaseResult.success)]
    simp [Outcome.add_phase_result, List.append_assoc]

theorem rcp_full_success (env : LabEnv) (o : Options) (ws : Workspace)
    (sc : Scenario) (hco : o.check_only = false)
    (hres : ∀ p, env.result ws sc p = Except.ok PhaseResult.success)
    (ps : List Phase) :
    run_cargo_phases env o ws sc ps =
      (Except.ok ⟨sc, ps.map
          (fun p => ⟨p, env.duration sc p, PhaseResult.success⟩)⟩,
        pre_events sc ps ++ ps.map (fun p => Event.runPhase sc p
          (cargo_args o p) (phase_timeout o p))) := by
  simp only [run_cargo_phases]
  rw [rpl_full_success env o ws sc hco hres ps (Outcome.new sc)]
  simp [Outcome.new]

theorem outcome_map_success (sc : Scenario) (ps : List Phase)
    (f : Phase → Duration) :
    (Outcome.mk sc (ps.map
      (fun p => ⟨p, f p, PhaseResult.success⟩))).success = true := by
  simp only [Outcome.success, List.all_eq_true]
  intro e he
  rcases List.mem_map.mp he with ⟨p, _, rfl⟩
  rfl

theorem outcome_all_test_duration (env : LabEnv) (sc : Scenario) :
    (Outcome.mk sc (Phase.ALL.map (fun p =>
      ⟨p, env.duration sc p, PhaseResult.success⟩))).test_duration =
      some (env.duration sc Phase.test) := rfl

/-! Lemmas about the mutant loop. -/

theorem snapshots_getLast (acc : LabOutcome) : (outs : List Outcome) →
    outs ≠ [] → (snapshots acc outs).getLast? = some (acc ++ outs)
  | [], h => absurd rfl h
  | oc :: outs, _ => by
    cases outs with
    | nil => simp [snapshots]
    | cons oc2 rest =>
      have ih := snapshots_getLast (acc ++ [oc]) (oc2 :: rest) (by simp)
      have hstep : (snapshots acc (oc :: oc2 :: rest)).getLast? =
          (snapshots (acc ++ [oc]) (oc2 :: rest)).getLast? := by
        rw [snapshots]
        cases hsn : snapshots (acc ++ [oc]) (oc2 :: rest) with
        | nil => exact absurd hsn (by simp [snapshots])
        | cons a l => rw [List.getLast?_cons_cons]
      rw [hstep, ih]
      simp

theorem mutant_loop_ok (env : LabEnv) (o : Options)
    (herr : ∀ ws sc ph, ∃ r, env.result ws sc ph = Except.ok r)
    (nTot : Nat) :
    (ms : List Mutation) → (i : Nat) → (ws : Workspace) →
    (acc : LabOutcome) → ∃ outs,
      (mutant_loop env o nTot ms i ws acc).1 = Except.ok (acc ++ outs)
      ∧ outs.length = ms.length
      ∧ (mutant_loop env o nTot ms i ws acc).2.filterMap Event.writeContent =
          snapshots acc outs
  | [], i, ws, acc => ⟨[], by simp [mutant_loop], rfl, by
      simp [mutant_loop, snapshots]⟩
  | m :: ms, i, ws, acc => by
    rcases rcp_ok_noerror env o (setFile ws m.file_name m.mutated_code)
        (Scenario.mutant m i nTot) (fun p => herr _ _ p) Phase.ALL
      with ⟨oc, hoc⟩
    rcases mutant_loop_ok env o herr nTot ms (i + 1) ws (acc ++ [oc])
      with ⟨outs, h1, hlen, h2⟩
    refine ⟨oc :: outs, ?_, by simp [hlen], ?_⟩
    · simp only [mutant_loop, test_mutation_eq, hoc]
      rw [h1]
      simp
    · simp only [mutant_loop, test_mutation_eq, hoc]
      rw [List.filterMap_append, List.filterMap_append,
        rcp_writeContent_nil, h2]
      simp [Event.writeContent, snapshots]

theorem mutant_loop_events_mem (env : LabEnv) (o : Options) (nTot : Nat) :
    (ms : List Mutation) → (i : Nat) → (ws : Workspace) →
    (acc : LabOutcome) →
    ∀ e ∈ (mutant_loop env o nTot ms i ws acc).2,
      (∃ sc ws2, sc.isMutant = true
        ∧ e ∈ (run_cargo_phases env o ws2 sc Phase.ALL).2)
      ∨ (∃ oc, e = Event.outcomeAdded oc)
      ∨ (∃ lo, e = Event.writeOutcomesJson lo)
  | [], _, _, _, e, he => by simp [mutant_loop] at he
  | m :: ms, i, ws, acc, e, he => by
    simp only [mutant_loop, test_mutation_eq] at he
    split at he
    · exact Or.inl ⟨Scenario.mutant m i nTot, _, rfl, he⟩
    · rw [List.mem_append, List.mem_append] at he
      rcases he with (hin | hmid) | hrec
      · exact Or.inl ⟨Scenario.mutant m i nTot, _, rfl, hin⟩
      · simp only [List.mem_cons, List.not_mem_nil, or_false] at hmid
        rcases hmid with h | h
        · exact Or.inr (Or.inl ⟨_, h⟩)
        · exact Or.inr (Or.inr ⟨_, h⟩)
      · exact mutant_loop_events_mem env o nTot ms (i + 1) ws _ e hrec

theorem mutant_loop_test_timeout (env : LabEnv) (o : Options) (nTot : Nat)
    (ms : List Mutation) (i : Nat) (ws : Workspace) (acc : LabOutcome) :
    ∀ e ∈ (mutant_loop env o nTot ms i ws acc).2, ∀ m j n a t,
      e = Event.runPhase (Scenario.mutant m j n) Phase.test a t →
      t = o.test_timeout_val := by
  intro e he m j n a t heq
  subst heq
  rcases mutant_loop_events_mem env o nTot ms i ws acc _ he with
    ⟨sc, ws2, hm, hin⟩ | ⟨oc, h⟩ | ⟨lo, h⟩
  · rcases rcp_events_mem env o ws2 sc Phase.ALL _ hin with
      h | ⟨s, h⟩ | ⟨d, h⟩ | ⟨p, h⟩
    · simp at h
    · simp at h
    · simp at h
    · have hp : Phase.test = p ∧ t = phase_timeout o p := by
        simp only [Event.runPhase.injEq] at h
        exact ⟨h.2.1, h.2.2.2⟩
      rw [hp.2, ← hp.1]
      rfl
  · simp at h
  · simp at h

theorem derive_timeout_fields (o : Options) (bo : Outcome) :
    (derive_timeout o bo).shuffle = o.shuffle
    ∧ (derive_timeout o bo).check_only = o.check_only
    ∧ (derive_timeout o bo).build_source = o.build_source := by
  unfold derive_timeout
  split
  · split <;> simp [Options.set_test_timeout]
  · simp

theorem derive_timeout_auto (o : Options) (bo : Outcome) (d : Duration)
    (hto : o.test_timeout = none) (hbo : bo.test_duration = some d) :
    (derive_timeout o bo).test_timeout_val = auto_timeout d := by
  simp [derive_timeout, Options.has_test_timeout, hto, hbo,
    Options.set_test_timeout, Options.test_timeout_val]

/-- C6: run_cargo_phases (outside check-only mode) executes the requested
phases strictly in the supplied order, stopping at the first phase whose
result is a failure, a timeout, or an unrecoverable error: the executed
phases form an initial segment of the requested list, every executed
phase before the last succeeded, stopping short of the full list means
the last executed phase did not succeed, and the returned Outcome records
exactly the executed phases; in particular, if Check fails in a
three-phase request, Build and Test are never invoked and the Outcome
records exactly one phase result. -/
theorem run_cargo_phases_early_exit (env : LabEnv) (o : Options)
    (ws : Workspace) (sc : Scenario) (phases : List Phase)
    (hco : o.check_only = false) :
    (∃ rest, phases =
      run_phases_of (run_cargo_phases env o ws sc phases).2 ++ rest)
    ∧ (∀ p ∈ (run_phases_of (run_cargo_phases env o ws sc phases).2).dropLast,
        phase_ok env ws sc p = true)
    ∧ (run_phases_of (run_cargo_phases env o ws sc phases).2 ≠ phases →
        ∃ q, (run_phases_of (run_cargo_phases env o ws sc phases).2).getLast? =
          some q ∧ phase_ok env ws sc q = false)
    ∧ (∀ res, (run_cargo_phases env o ws sc phases).1 = Except.ok res →
        res.phase_results.map PhaseEntry.phase =
          run_phases_of (run_cargo_phases env o ws sc phases).2)
    ∧ (∀ r, env.result ws sc Phase.check = Except.ok r →
        r.isSuccess = false → phases = Phase.ALL →
        run_phases_of (run_cargo_phases env o ws sc phases).2 = [Phase.check]
        ∧ ∀ res, (run_cargo_phases env o ws sc phases).1 = Except.ok res →
            res.phase_results.length = 1) := by
  have hpre : run_phases_of (run_cargo_phases env o ws sc phases).2 =
      run_phases_of (run_phase_list env o ws sc phases (Outcome.new sc)).2 := by
    simp only [run_cargo_phases]
    rw [run_phases_of_append, run_phases_of_pre, List.nil_append]
  have h := rpl_early_exit env o ws sc hco phases (Outcome.new sc)
  refine ⟨?_, ?_, ?_, ?_, ?_⟩
  · rw [hpre]; exact h.1
  · rw [hpre]; exact h.2.1
  · rw [hpre]; exact h.2.2.1
  · intro res hres
    rw [hpre]
    have := h.2.2.2 res hres
    simpa [Outcome.new] using this
  · intro r hr hfail hph
    subst hph
    have heval : run_phase_list env o ws sc Phase.ALL (Outcome.new sc) =
        (Except.ok ((Outcome.new sc).add_phase_result Phase.check
            (env.duration sc Phase.check) r),
          [Event.runPhase sc Phase.check (cargo_args o Phase.check)
            (phase_timeout o Phase.check)]) := by
      simp [Phase.ALL, run_phase_list, hr, hco, hfail]
    constructor
    · rw [hpre]
      simp [heval, run_phases_of]
    · intro res hres
      simp only [run_cargo_phases, heval, Except.ok.injEq] at hres
      rw [← hres]
      simp [Outcome.new, Outcome.add_phase_result]

/-- Witness for C6: in a concrete environment whose Check phase fails,
a three-phase baseline request executes only Check. -/
theorem run_cargo_phases_early_exit_witness :
    run_phases_of (run_cargo_phases envCheckFail optsStd wsEmpty
      Scenario.baseline Phase.ALL).2 = [Phase.check] := by
  have h := run_cargo_phases_early_exit envCheckFail optsStd wsEmpty
    Scenario.baseline Phase.ALL rfl
  exact (h.2.2.2.2 PhaseResult.failure rfl rfl rfl).1

/-- Witness for C7: with check-only enabled and a succeeding Check, the
full three-phase request produces an outcome recording only Check. -/
theorem check_only_single_phase_witness :
    (run_cargo_phases (envAllOk []) optsCheckOnly wsEmpty Scenario.baseline
        Phase.ALL).1 =
      Except.ok ⟨Scenario.baseline,
        [⟨Phase.check, 2, PhaseResult.success⟩]⟩ := by
  have h := check_only_single_phase (envAllOk []) optsCheckOnly wsEmpty
    Scenario.baseline PhaseResult.success rfl rfl
  exact h.1

/-! Orchestrator-level lemmas and claims. -/

theorem lab_after_source_count (env : LabEnv) (o : Options)
    (herr : ∀ ws sc ph, ∃ r, env.result ws sc ph = Except.ok r)
    (hbase : ∀ ph, env.result env.scratch Scenario.baseline ph =
      Except.ok PhaseResult.success)
    (hshuf : ∀ l, (env.shuffle_fn l).length = l.length)
    (acc : LabOutcome) : ∃ lo,
    (lab_after_source env o acc).1 = Except.ok lo
    ∧ lo.length = acc.length + 1 + env.mutations.length
    ∧ (env.mutations.length = 0 →
        (lab_after_source env o acc).2.filterMap Event.writeContent = [])
    ∧ (env.mutations.length ≠ 0 →
        ((lab_after_source env o acc).2.filterMap
          Event.writeContent).getLast? = some lo) := by
  rcases rcp_ok_success env o env.scratch Scenario.baseline
      hbase Phase.ALL with ⟨bo, hbo, hbsucc, _⟩
  obtain ⟨ms, hms⟩ : ∃ ms, (if (derive_timeout o bo).shuffle then
      env.shuffle_fn env.mutations else env.mutations) = ms := ⟨_, rfl⟩
  have hmslen : ms.length = env.mutations.length := by
    rw [← hms]
    by_cases h : (derive_timeout o bo).shuffle <;> simp [h, hshuf]
  have heval : lab_after_source env o acc =
      ((mutant_loop env (derive_timeout o bo) ms.length ms 0 env.scratch
          (acc ++ [bo])).1,
        (run_cargo_phases env o env.scratch Scenario.baseline Phase.ALL).2
          ++ [Event.outcomeAdded bo, Event.queryMutations,
            Event.writeMutantsJson ms]
          ++ (mutant_loop env (derive_timeout o bo) ms.length ms 0
            env.scratch (acc ++ [bo])).2) := by
    simp [lab_after_source, test_baseline, hbo, hbsucc, hms]
  rcases mutant_loop_ok env (derive_timeout o bo) herr ms.length ms 0
      env.scratch (acc ++ [bo]) with ⟨outs, h1, hlen, h2⟩
  have hlen' : outs.length = env.mutations.length := hlen.trans hmslen
  refine ⟨acc ++ [bo] ++ outs, ?_, ?_, ?_, ?_⟩
  · rw [heval]
    simp only [h1]
  · simp only [List.length_append, List.length_singleton, hlen']
  · intro hn
    have houts : outs = [] := by
      rw [← List.length_eq_zero, hlen', hn]
    rw [heval]
    simp only [List.filterMap_append, rcp_writeContent_nil, h2, houts]
    simp [Event.writeContent, snapshots]
  · intro hn
    have houts : outs ≠ [] := by
      intro h
      exact hn (by rw [← hlen']; exact List.length_eq_zero.mpr h)
    rw [heval]
    simp only [List.filterMap_append, rcp_writeContent_nil, h2]
    simp only [List.nil_append]
    have hmid : [Event.outcomeAdded bo, Event.queryMutations,
        Event.writeMutantsJson ms].filterMap Event.writeContent = [] := by
      simp [Event.writeContent]
    rw [hmid, List.nil_append, snapshots_getLast (acc ++ [bo]) outs houts]

/-- C3 (amended): after any full run with a passing baseline (and a
passing source-tree scenario, when build_source is enabled), the returned
LabOutcome contains exactly 1 (source tree, if build_source) + 1
(baseline) + n outcomes — the phase results of the mutant scenarios
themselves are arbitrary, so caught (failing or timing-out) mutants are
counted exactly like uncaught ones; when n is at least 1 the final
outcomes.json write contains exactly that LabOutcome, but when n = 0
outcomes.json is never written at all.  The only environment assumption
besides the passing setup scenarios is that the build runner raises no
unrecoverable error. -/
theorem outcome_count (env : LabEnv) (o : Options)
    (herr : ∀ ws sc ph, ∃ r, env.result ws sc ph = Except.ok r)
    (hbase : ∀ ph, env.result env.scratch Scenario.baseline ph =
      Except.ok PhaseResult.success)
    (hsrc : o.build_source = true → ∀ ph, env.result env.source_ws
      Scenario.sourceTree ph = Except.ok PhaseResult.success)
    (hshuf : ∀ l, (env.shuffle_fn l).length = l.length) : ∃ lo,
    (test_unmutated_then_all_mutants env o).1 = Except.ok lo
    ∧ lo.length =
        (if o.build_source then 1 else 0) + 1 + env.mutations.length
    ∧ (env.mutations.length = 0 →
        (test_unmutated_then_all_mutants env o).2.1.filterMap
          Event.writeContent = [])
    ∧ (env.mutations.length ≠ 0 →
        ((test_unmutated_then_all_mutants env o).2.1.filterMap
          Event.writeContent).getLast? = some lo) := by
  by_cases hbs : o.build_source = true
  · rcases rcp_ok_success env o env.source_ws Scenario.sourceTree
        (hsrc hbs)
        (if o.check_only then [Phase.check] else [Phase.check, Phase.build])
      with ⟨so, hso, hsosucc, _⟩
    have hso' : (check_and_build_source_tree env o).1 = Except.ok so := by
      simp only [check_and_build_source_tree]
      exact hso
    have heval : test_unmutated_then_all_mutants env o =
        ((lab_after_source env o [so]).1,
          (check_and_build_source_tree env o).2
            ++ [Event.outcomeAdded so] ++ (lab_after_source env o [so]).2,
          o) := by
      simp [test_unmutated_then_all_mutants, hbs, hso', hsosucc]
    rcases lab_after_source_count env o herr hbase hshuf [so]
      with ⟨lo, h1, h2, h3, h4⟩
    refine ⟨lo, by rw [heval]; exact h1, by rw [h2]; simp [hbs], ?_, ?_⟩
    · intro hn
      rw [heval]
      simp only [List.filterMap_append]
      rw [h3 hn]
      simp only [check_and_build_source_tree]
      rw [rcp_writeContent_nil]
      simp [Event.writeContent]
    · intro hn
      rw [heval]
      simp only [List.filterMap_append]
      simp only [check_and_build_source_tree]
      rw [rcp_writeContent_nil]
      have hmid : [Event.outcomeAdded so].filterMap Event.writeContent
          = [] := by simp [Event.writeContent]
      rw [hmid]
      simp only [List.nil_append]
      exact h4 hn
  · have hbs' : o.build_source = false := by
      cases hv : o.build_source
      · rfl
      · exact absurd hv hbs
    have heval : test_unmutated_then_all_mutants env o =
        ((lab_after_source env o []).1, (lab_after_source env o []).2,
          o) := by
      simp [test_unmutated_then_all_mutants, hbs']
    rcases lab_after_source_count env o herr hbase hshuf []
      with ⟨lo, h1, h2, h3, h4⟩
    refine ⟨lo, by rw [heval]; exact h1, by rw [h2]; simp [hbs'], ?_, ?_⟩
    · intro hn
      rw [heval]
      exact h3 hn
    · intro hn
      rw [heval]
      exact h4 hn

/-- Witness for C3 (amended) at a concrete run whose single mutation is
caught — its Test phase fails — showing the caught mutant's outcome is
counted all the same. -/
theorem outcome_count_witness : ∃ lo,
    (test_unmutated_then_all_mutants envMutantCaught optsStd).1 =
      Except.ok lo
    ∧ lo.length = (if optsStd.build_source then 1 else 0) + 1 +
        envMutantCaught.mutations.length
    ∧ (envMutantCaught.mutations.length = 0 →
        (test_unmutated_then_all_mutants envMutantCaught
          optsStd).2.1.filterMap Event.writeContent = [])
    ∧ (envMutantCaught.mutations.length ≠ 0 →
        ((test_unmutated_then_all_mutants envMutantCaught
          optsStd).2.1.filterMap Event.writeContent).getLast? = some lo) :=
  outcome_count envMutantCaught optsStd
    (fun _ sc ph => by cases sc <;> cases ph <;> exact ⟨_, rfl⟩)
    (fun ph => by cases ph <;> rfl)
    (fun _ ph => by cases ph <;> rfl)
    (fun _ => rfl)

/-- Counterexample to C3 as stated: a full run with a passing baseline
and zero mutations completes with a 2-entry LabOutcome, yet outcomes.json
is never written, so no final state of that file containing the required
2 outcomes exists. -/
theorem outcome_count_counterexample :
    (test_unmutated_then_all_mutants (envAllOk []) optsStd).2.1.filterMap
        Event.writeContent = []
    ∧ (test_unmutated_then_all_mutants (envAllOk []) optsStd).2.1.countP
        Event.isOutcomeAdded = 2
    ∧ (test_unmutated_then_all_mutants (envAllOk []) optsStd).1 =
        Except.ok [⟨Scenario.sourceTree,
            [⟨Phase.check, 2, PhaseResult.success⟩,
              ⟨Phase.build, 2, PhaseResult.success⟩]⟩,
          ⟨Scenario.baseline,
            [⟨Phase.check, 2, PhaseResult.success⟩,
              ⟨Phase.build, 2, PhaseResult.success⟩,
              ⟨Phase.test, Duration.secs 1, PhaseResult.success⟩]⟩] :=
  ⟨rfl, rfl, rfl⟩

/-- C5: when no explicit test timeout is configured and the baseline
passes with a test-phase duration d, every Test-phase invocation of every
mutant scenario runs with timeout max(20 seconds, 5 x d); in particular
d = 1s yields 20s and d = 10s yields 50s.  (Duration arithmetic is
modelled exactly; the source's f32 scaling by 5.0 is exact at these
instances.) -/
theorem auto_timeout_law (env : LabEnv) (o : Options)
    (hres : ∀ ws sc ph, env.result ws sc ph = Except.ok PhaseResult.success)
    (hco : o.check_only = false)
    (hto : o.test_timeout = none) :
    (∀ e ∈ (test_unmutated_then_all_mutants env o).2.1, ∀ m j n a t,
      e = Event.runPhase (Scenario.mutant m j n) Phase.test a t →
      t = max (Duration.secs 20)
        (5 * env.duration Scenario.baseline Phase.test))
    ∧ auto_timeout (Duration.secs 1) = Duration.secs 20
    ∧ auto_timeout (Duration.secs 10) = Duration.secs 50 := by
  refine ⟨?_, by decide, by decide⟩
  have hbase := rcp_full_success env o env.scratch Scenario.baseline hco
    (fun p => hres _ _ p) Phase.ALL
  have hbo1 : (run_cargo_phases env o env.scratch Scenario.baseline
      Phase.ALL).1 = Except.ok ⟨Scenario.baseline, Phase.ALL.map
        (fun p => ⟨p, env.duration Scenario.baseline p,
          PhaseResult.success⟩)⟩ := by rw [hbase]
  have hbsucc : (Outcome.mk Scenario.baseline (Phase.ALL.map
      (fun p => ⟨p, env.duration Scenario.baseline p,
        PhaseResult.success⟩))).success = true :=
    outcome_map_success _ _ _
  have hoT : (derive_timeout o (Outcome.mk Scenario.baseline
      (Phase.ALL.map (fun p => ⟨p, env.duration Scenario.baseline p,
        PhaseResult.success⟩)))).test_timeout_val =
      auto_timeout (env.duration Scenario.baseline Phase.test) :=
    derive_timeout_auto o _ _ hto (outcome_all_test_duration env _)
  have hafter : ∀ acc, ∀ e ∈ (lab_after_source env o acc).2, ∀ m j n a t,
      e = Event.runPhase (Scenario.mutant m j n) Phase.test a t →
      t = max (Duration.secs 20)
        (5 * env.duration Scenario.baseline Phase.test) := by
    intro acc e he m j n a t heq
    obtain ⟨ms, hms⟩ : ∃ ms, (if (derive_timeout o (Outcome.mk
        Scenario.baseline (Phase.ALL.map (fun p => ⟨p,
          env.duration Scenario.baseline p,
          PhaseResult.success⟩)))).shuffle then
        env.shuffle_fn env.mutations else env.mutations) = ms := ⟨_, rfl⟩
    have heval : lab_after_source env o acc =
        ((mutant_loop env (derive_timeout o (Outcome.mk Scenario.baseline
            (Phase.ALL.map (fun p => ⟨p,
              env.duration Scenario.baseline p, PhaseResult.success⟩))))
            ms.length ms 0 env.scratch (acc ++ [Outcome.mk
              Scenario.baseline (Phase.ALL.map (fun p => ⟨p,
                env.duration Scenario.baseline p,
                PhaseResult.success⟩))])).1,
          (run_cargo_phases env o env.scratch Scenario.baseline
            Phase.ALL).2
            ++ [Event.outcomeAdded (Outcome.mk Scenario.baseline
                (Phase.ALL.map (fun p => ⟨p,
                  env.duration Scenario.baseline p,
                  PhaseResult.success⟩))),
              Event.queryMutations, Event.writeMutantsJson ms]
            ++ (mutant_loop env (derive_timeout o (Outcome.mk
              Scenario.baseline (Phase.ALL.map (fun p => ⟨p,
                env.duration Scenario.baseline p,
                PhaseResult.success⟩))))
              ms.length ms 0 env.scratch (acc ++ [Outcome.mk
                Scenario.baseline (Phase.ALL.map (fun p => ⟨p,
                  env.duration Scenario.baseline p,
                  PhaseResult.success⟩))])).2) := by
      simp [lab_after_source, test_baseline, hbo1, hbsucc, hms]
    rw [heval] at he
    rw [List.mem_append, List.mem_append] at he
    rcases he with (hbr | hmid) | hloop
    · rcases rcp_events_mem env o env.scratch Scenario.baseline Phase.ALL
          e hbr with h | ⟨s, h⟩ | ⟨d, h⟩ | ⟨p, h⟩ <;> subst heq <;> simp at h
    · subst heq
      simp only [List.mem_cons, List.not_mem_nil, or_false] at hmid
      rcases hmid with h | h | h <;> simp at h
    · have := mutant_loop_test_timeout env _ ms.length ms 0 env.scratch _
        e hloop m j n a t heq
      rw [this, hoT]
      rfl
  by_cases hbs : o.build_source = true
  · have hsrc := rcp_full_success env o env.source_ws Scenario.sourceTree
      hco (fun p => hres _ _ p)
      (if o.check_only then [Phase.check] else [Phase.check, Phase.build])
    have hso : (check_and_build_source_tree env o).1 = Except.ok
        ⟨Scenario.sourceTree, (if o.check_only then [Phase.check]
          else [Phase.check, Phase.build]).map
            (fun p => ⟨p, env.duration Scenario.sourceTree p,
              PhaseResult.success⟩)⟩ := by
      simp only [check_and_build_source_tree]
      rw [hsrc]
    have hsosucc := outcome_map_success Scenario.sourceTree
      (if o.check_only then [Phase.check] else [Phase.check, Phase.build])
      (fun p => env.duration Scenario.sourceTree p)
    have heval : (test_unmutated_then_all_mutants env o).2.1 =
        (check_and_build_source_tree env o).2
          ++ [Event.outcomeAdded ⟨Scenario.sourceTree,
              (if o.check_only then [Phase.check]
                else [Phase.check, Phase.build]).map
                (fun p => ⟨p, env.duration Scenario.sourceTree p,
                  PhaseResult.success⟩)⟩]
          ++ (lab_after_source env o [⟨Scenario.sourceTree,
              (if o.check_only then [Phase.check]
                else [Phase.check, Phase.build]).map
                (fun p => ⟨p, env.duration Scenario.sourceTree p,
                  PhaseResult.success⟩)⟩]).2 := by
      simp [test_unmutated_then_all_mutants, hbs, hso, hsosucc]
    intro e he m j n a t heq
    rw [heval, List.mem_append, List.mem_append] at he
    rcases he with (hsr | hmid) | haf
    · rcases rcp_events_mem env o env.source_ws Scenario.sourceTree _
          e hsr with h | ⟨s, h⟩ | ⟨d, h⟩ | ⟨p, h⟩ <;> subst heq <;>
        simp at h
    · subst heq
      simp only [List.mem_cons, List.not_mem_nil, or_false] at hmid
      simp at hmid
    · exact hafter _ e haf m j n a t heq
  · have hbs' : o.build_source = false := by
      cases hv : o.build_source
      · rfl
      · exact absurd hv hbs
    have heval : (test_unmutated_then_all_mutants env o).2.1 =
        (lab_after_source env o []).2 := by
      simp [test_unmutated_then_all_mutants, hbs']
    intro e he m j n a t heq
    rw [heval] at he
    exact hafter [] e he m j n a t heq

/-- Witness for C5 at a concrete fully passing run with one mutation and
a 1-second baseline test duration. -/
theorem auto_timeout_law_witness :
    (∀ e ∈ (test_unmutated_then_all_mutants (envAllOk [mutA])
        optsStd).2.1, ∀ m j n a t,
      e = Event.runPhase (Scenario.mutant m j n) Phase.test a t →
      t = max (Duration.secs 20)
        (5 * (envAllOk [mutA]).duration Scenario.baseline Phase.test))
    ∧ auto_timeout (Duration.secs 1) = Duration.secs 20
    ∧ auto_timeout (Duration.secs 10) = Duration.secs 50 :=
  auto_timeout_law (envAllOk [mutA]) optsStd (fun _ _ _ => rfl) rfl rfl

theorem rcp_filter_tracking_nil (env : LabEnv) (o : Options)
    (ws : Workspace) (sc : Scenario) (ps : List Phase) :
    (run_cargo_phases env o ws sc ps).2.filter Event.isTracking = [] := by
  rw [List.filter_eq_nil_iff]
  intro e he
  have h := (rcp_event_flags env o ws sc ps e he).1
  simp [h]

theorem mutant_loop_tracking (env : LabEnv) (o : Options) (nTot : Nat) :
    (ms : List Mutation) → (i : Nat) → (ws : Workspace) →
    (acc : LabOutcome) →
    writes_are_snapshots acc
      ((mutant_loop env o nTot ms i ws acc).2.filter Event.isTracking)
    ∧ good_tracking
      ((mutant_loop env o nTot ms i ws acc).2.filter Event.isTracking)
  | [], _, _, acc => by
    simp [mutant_loop, writes_are_snapshots, good_tracking]
  | m :: ms, i, ws, acc => by
    cases hoc : (run_cargo_phases env o (setFile ws m.file_name
        m.mutated_code) (Scenario.mutant m i nTot) Phase.ALL).1 with
    | error e =>
      have heval : mutant_loop env o nTot (m :: ms) i ws acc =
          (Except.error e, (run_cargo_phases env o (setFile ws m.file_name
            m.mutated_code) (Scenario.mutant m i nTot) Phase.ALL).2) := by
        simp only [mutant_loop, test_mutation_eq, hoc]
      simp only [heval, rcp_filter_tracking_nil]
      exact ⟨trivial, trivial⟩
    | ok oc =>
      have hsc : oc.scenario = Scenario.mutant m i nTot :=
        rcp_scenario env o _ _ Phase.ALL oc hoc
      have ih := mutant_loop_tracking env o nTot ms (i + 1) ws (acc ++ [oc])
      have heval : mutant_loop env o nTot (m :: ms) i ws acc =
          ((mutant_loop env o nTot ms (i + 1) ws (acc ++ [oc])).1,
            (run_cargo_phases env o (setFile ws m.file_name m.mutated_code)
              (Scenario.mutant m i nTot) Phase.ALL).2
              ++ [Event.outcomeAdded oc,
                Event.writeOutcomesJson (acc ++ [oc])]
              ++ (mutant_loop env o nTot ms (i + 1) ws
                (acc ++ [oc])).2) := by
        simp only [mutant_loop, test_mutation_eq, hoc]
      have hf : [Event.outcomeAdded oc,
          Event.writeOutcomesJson (acc ++ [oc])].filter Event.isTracking =
          [Event.outcomeAdded oc, Event.writeOutcomesJson (acc ++ [oc])] :=
        by simp [Event.isTracking]
      constructor
      · simp only [heval, List.filter_append, rcp_filter_tracking_nil,
          List.nil_append, hf, List.cons_append]
        simp only [writes_are_snapshots]
        exact ⟨trivial, ih.1⟩
      · simp only [heval, List.filter_append, rcp_filter_tracking_nil,
          List.nil_append, hf, List.cons_append]
        simp only [good_tracking, hsc, Scenario.isMutant, if_true]
        exact ih.2

theorem lab_after_source_tracking (env : LabEnv) (o : Options)
    (acc : LabOutcome) :
    writes_are_snapshots acc
      ((lab_after_source env o acc).2.filter Event.isTracking)
    ∧ good_tracking
      ((lab_after_source env o acc).2.filter Event.isTracking) := by
  cases hbr : (run_cargo_phases env o env.scratch Scenario.baseline
      Phase.ALL).1 with
  | error e =>
    have heval : lab_after_source env o acc =
        (Except.error e, (run_cargo_phases env o env.scratch
          Scenario.baseline Phase.ALL).2) := by
      simp [lab_after_source, test_baseline, hbr]
    simp only [heval, rcp_filter_tracking_nil]
    exact ⟨trivial, trivial⟩
  | ok bo =>
    have hscb : bo.scenario = Scenario.baseline :=
      rcp_scenario env o _ _ Phase.ALL bo hbr
    by_cases hsuc : bo.success = true
    · obtain ⟨ms, hms⟩ : ∃ ms, (if (derive_timeout o bo).shuffle then
          env.shuffle_fn env.mutations else env.mutations) = ms := ⟨_, rfl⟩
      have heval : lab_after_source env o acc =
          ((mutant_loop env (derive_timeout o bo) ms.length ms 0
              env.scratch (acc ++ [bo])).1,
            (run_cargo_phases env o env.scratch Scenario.baseline
              Phase.ALL).2
              ++ [Event.outcomeAdded bo, Event.queryMutations,
                Event.writeMutantsJson ms]
              ++ (mutant_loop env (derive_timeout o bo) ms.length ms 0
                env.scratch (acc ++ [bo])).2) := by
        simp [lab_after_source, test_baseline, hbr, hsuc, hms]
      have ih := mutant_loop_tracking env (derive_timeout o bo) ms.length
        ms 0 env.scratch (acc ++ [bo])
      have hf : [Event.outcomeAdded bo, Event.queryMutations,
          Event.writeMutantsJson ms].filter Event.isTracking =
          [Event.outcomeAdded bo] := by simp [Event.isTracking]
      constructor
      · simp only [heval, List.filter_append, rcp_filter_tracking_nil,
          List.nil_append, hf, List.cons_append]
        simp only [writes_are_snapshots]
        exact ih.1
      · simp only [heval, List.filter_append, rcp_filter_tracking_nil,
          List.nil_append, hf, List.cons_append]
        unfold good_tracking
        rw [hscb, show Scenario.baseline.isMutant = false from rfl]
        simp only [Bool.false_eq_true, if_false]
        exact ih.2
    · have hsuc' : bo.success = false := by
        cases hv : bo.success
        · rfl
        · exact absurd hv hsuc
      have heval : lab_after_source env o acc =
          (Except.ok (acc ++ [bo]),
            (run_cargo_phases env o env.scratch Scenario.baseline
              Phase.ALL).2 ++ [Event.outcomeAdded bo]) := by
        simp [lab_after_source, test_baseline, hbr, hsuc']
      have hf : [Event.outcomeAdded bo].filter Event.isTracking =
          [Event.outcomeAdded bo] := by simp [Event.isTracking]
      constructor
      · simp only [heval, List.filter_append, rcp_filter_tracking_nil,
          List.nil_append, hf]
        simp [writes_are_snapshots]
      · simp only [heval, List.filter_append, rcp_filter_tracking_nil,
          List.nil_append, hf]
        simp [good_tracking, hscb, Scenario.isMutant]

/-- C2 (amended): every outcomes.json rewrite is a pretty-printed dump of
exactly the LabOutcome accumulated so far (a complete, consistent
snapshot); such a rewrite occurs immediately after each mutant scenario's
outcome is accumulated and only there — in particular outcomes.json is
not rewritten after the source-tree or baseline scenarios complete. -/
theorem outcomes_json_snapshot (env : LabEnv) (o : Options) :
    writes_are_snapshots []
      ((test_unmutated_then_all_mutants env o).2.1.filter Event.isTracking)
    ∧ good_tracking
      ((test_unmutated_then_all_mutants env o).2.1.filter Event.isTracking)
    := by
  by_cases hbs : o.build_source = true
  · cases hsr : (check_and_build_source_tree env o).1 with
    | error e =>
      have heval : (test_unmutated_then_all_mutants env o).2.1 =
          (check_and_build_source_tree env o).2 := by
        simp [test_unmutated_then_all_mutants, hbs, hsr]
      rw [heval]
      simp only [check_and_build_source_tree]
      rw [rcp_filter_tracking_nil]
      exact ⟨trivial, trivial⟩
    | ok so =>
      have hscs : so.scenario = Scenario.sourceTree := by
        have h2 : (check_and_build_source_tree env o).1 = Except.ok so :=
          hsr
        simp only [check_and_build_source_tree] at h2
        exact rcp_scenario env o _ _ _ so h2
      by_cases hss : so.success = true
      · have heval : (test_unmutated_then_all_mutants env o).2.1 =
            (check_and_build_source_tree env o).2
              ++ [Event.outcomeAdded so]
              ++ (lab_after_source env o [so]).2 := by
          simp [test_unmutated_then_all_mutants, hbs, hsr, hss]
        have ih := lab_after_source_tracking env o [so]
        have hf : [Event.outcomeAdded so].filter Event.isTracking =
            [Event.outcomeAdded so] := by simp [Event.isTracking]
        rw [heval]
        simp only [List.filter_append]
        simp only [check_and_build_source_tree]
        rw [rcp_filter_tracking_nil, hf]
        simp only [List.nil_append, List.cons_append]
        constructor
        · simp only [writes_are_snapshots, List.nil_append]
          exact ih.1
        · unfold good_tracking
          rw [hscs, show Scenario.sourceTree.isMutant = false from rfl]
          simp only [Bool.false_eq_true, if_false]
          exact ih.2
      · have hss' : so.success = false := by
          cases hv : so.success
          · rfl
          · exact absurd hv hss
        have heval : (test_unmutated_then_all_mutants env o).2.1 =
            (check_and_build_source_tree env o).2
              ++ [Event.outcomeAdded so] := by
          simp [test_unmutated_then_all_mutants, hbs, hsr, hss']
        have hf : [Event.outcomeAdded so].filter Event.isTracking =
            [Event.outcomeAdded so] := by simp [Event.isTracking]
        rw [heval]
        simp only [List.filter_append]
        simp only [check_and_build_source_tree]
        rw [rcp_filter_tracking_nil, hf]
        simp only [List.nil_append]
        constructor
        · simp [writes_are_snapshots]
        · simp [good_tracking, hscs, Scenario.isMutant]
  · have hbs' : o.build_source = false := by
      cases hv : o.build_source
      · rfl
      · exact absurd hv hbs
    have heval : (test_unmutated_then_all_mutants env o).2.1 =
        (lab_after_source env o []).2 := by
      simp [test_unmutated_then_all_mutants, hbs']
    rw [heval]
    exact lab_after_source_tracking env o []

/-- Counterexample to C2 as stated: a completed run (passing baseline,
zero mutations) accumulates one scenario outcome yet never writes
outcomes.json, so the file is not rewritten after every scenario
completes. -/
theorem outcomes_json_snapshot_counterexample :
    (test_unmutated_then_all_mutants (envAllOk []) optsNoSrc).2.1.countP
        Event.isOutcomeAdded = 1
    ∧ (test_unmutated_then_all_mutants (envAllOk []) optsNoSrc).2.1.countP
        Event.isWriteOutcomes = 0
    ∧ (test_unmutated_then_all_mutants (envAllOk []) optsNoSrc).1 =
        Except.ok [⟨Scenario.baseline,
          [⟨Phase.check, 2, PhaseResult.success⟩,
            ⟨Phase.build, 2, PhaseResult.success⟩,
            ⟨Phase.test, Duration.secs 1, PhaseResult.success⟩]⟩] :=
  ⟨rfl, rfl, rfl⟩

theorem rcp_no_mutant_events (env : LabEnv) (o : Options) (ws : Workspace)
    (sc : Scenario) (ps : List Phase) (hsc : sc.isMutant = false) :
    ∀ e ∈ (run_cargo_phases env o ws sc ps).2,
      Event.isQueryMutations e = false ∧ Event.isWriteMutants e = false
      ∧ Event.isMutantPipelineRun e = false := by
  intro e he
  have hf := rcp_event_flags env o ws sc ps e he
  refine ⟨hf.2.1, hf.2.2.1, ?_⟩
  cases hv : Event.isMutantPipelineRun e
  · rfl
  · exact absurd (hf.2.2.2.2.1 hv) (by simp [hsc])

/-- C4: when the baseline scenario (or the optional source-tree scenario)
fails a phase, the run returns Ok with the partial LabOutcome rather than
raising an error, the Mutation Source is never queried, no mutant
pipeline is ever invoked, and mutants.json is never written; in the
failing-baseline case with build_source enabled the returned LabOutcome
has exactly the source-tree and baseline entries. -/
theorem baseline_failure_aborts (env : LabEnv) (o : Options) :
    (∀ so bo, o.build_source = true →
      (check_and_build_source_tree env o).1 = Except.ok so →
      so.success = true →
      (test_baseline env o env.scratch).1 = Except.ok bo →
      bo.success = false →
      (test_unmutated_then_all_mutants env o).1 = Except.ok [so, bo]
      ∧ ∀ e ∈ (test_unmutated_then_all_mutants env o).2.1,
          Event.isQueryMutations e = false ∧ Event.isWriteMutants e = false
          ∧ Event.isMutantPipelineRun e = false)
    ∧ (∀ bo, o.build_source = false →
      (test_baseline env o env.scratch).1 = Except.ok bo →
      bo.success = false →
      (test_unmutated_then_all_mutants env o).1 = Except.ok [bo]
      ∧ ∀ e ∈ (test_unmutated_then_all_mutants env o).2.1,
          Event.isQueryMutations e = false ∧ Event.isWriteMutants e = false
          ∧ Event.isMutantPipelineRun e = false)
    ∧ (∀ so, o.build_source = true →
      (check_and_build_source_tree env o).1 = Except.ok so →
      so.success = false →
      (test_unmutated_then_all_mutants env o).1 = Except.ok [so]
      ∧ ∀ e ∈ (test_unmutated_then_all_mutants env o).2.1,
          Event.isQueryMutations e = false ∧ Event.isWriteMutants e = false
          ∧ Event.isMutantPipelineRun e = false) := by
  have hadded : ∀ oc : Outcome,
      Event.isQueryMutations (Event.outcomeAdded oc) = false
      ∧ Event.isWriteMutants (Event.outcomeAdded oc) = false
      ∧ Event.isMutantPipelineRun (Event.outcomeAdded oc) = false := by
    intro oc
    exact ⟨rfl, rfl, rfl⟩
  refine ⟨?_, ?_, ?_⟩
  · intro so bo hbs hso hss hbo hbf
    simp only [test_baseline] at hbo
    have hafter : lab_after_source env o [so] =
        (Except.ok [so, bo],
          (run_cargo_phases env o env.scratch Scenario.baseline
            Phase.ALL).2 ++ [Event.outcomeAdded bo]) := by
      simp [lab_after_source, test_baseline, hbo, hbf]
    have heval : test_unmutated_then_all_mutants env o =
        ((lab_after_source env o [so]).1,
          (check_and_build_source_tree env o).2
            ++ [Event.outcomeAdded so]
            ++ (lab_after_source env o [so]).2, o) := by
      simp [test_unmutated_then_all_mutants, hbs, hso, hss]
    constructor
    · rw [heval]
      simp only [hafter]
    · intro e he
      simp only [heval, hafter, check_and_build_source_tree] at he
      rw [List.mem_append, List.mem_append] at he
      rcases he with (h1 | h2) | h3
      · exact rcp_no_mutant_events env o env.source_ws Scenario.sourceTree
          _ rfl e h1
      · simp only [List.mem_singleton] at h2
        rw [h2]
        exact hadded so
      · rw [List.mem_append] at h3
        rcases h3 with h4 | h5
        · exact rcp_no_mutant_events env o env.scratch Scenario.baseline
            _ rfl e h4
        · simp only [List.mem_singleton] at h5
          rw [h5]
          exact hadded bo
  · intro bo hbs hbo hbf
    simp only [test_baseline] at hbo
    have hafter : lab_after_source env o [] =
        (Except.ok [bo],
          (run_cargo_phases env o env.scratch Scenario.baseline
            Phase.ALL).2 ++ [Event.outcomeAdded bo]) := by
      simp [lab_after_source, test_baseline, hbo, hbf]
    have heval : test_unmutated_then_all_mutants env o =
        ((lab_after_source env o []).1, (lab_after_source env o []).2,
          o) := by
      simp [test_unmutated_then_all_mutants, hbs]
    constructor
    · rw [heval]
      simp only [hafter]
    · intro e he
      simp only [heval, hafter] at he
      rw [List.mem_append] at he
      rcases he with h1 | h2
      · exact rcp_no_mutant_events env o env.scratch Scenario.baseline
          _ rfl e h1
      · simp only [List.mem_singleton] at h2
        rw [h2]
        exact hadded bo
  · intro so hbs hso hsf
    have heval : test_unmutated_then_all_mutants env o =
        (Except.ok [so],
          (check_and_build_source_tree env o).2
            ++ [Event.outcomeAdded so], o) := by
      simp [test_unmutated_then_all_mutants, hbs, hso, hsf]
    constructor
    · rw [heval]
    · intro e he
      simp only [heval, check_and_build_source_tree] at he
      rw [List.mem_append] at he
      rcases he with h1 | h2
      · exact rcp_no_mutant_events env o env.source_ws Scenario.sourceTree
          _ rfl e h1
      · simp only [List.mem_singleton] at h2
        rw [h2]
        exact hadded so

/-- Witness for C4: a concrete run whose source tree passes and whose
baseline Test phase fails returns Ok with exactly the source-tree and
baseline outcomes and never touches mutations. -/
theorem baseline_failure_aborts_witness :
    (test_unmutated_then_all_mutants envBaseFail optsStd).1 =
      Except.ok [srcOutcomeOk, baseOutcomeFail]
    ∧ ∀ e ∈ (test_unmutated_then_all_mutants envBaseFail optsStd).2.1,
        Event.isQueryMutations e = false ∧ Event.isWriteMutants e = false
        ∧ Event.isMutantPipelineRun e = false :=
  (baseline_failure_aborts envBaseFail optsStd).1 srcOutcomeOk
    baseOutcomeFail rfl rfl rfl rfl rfl

/-- C10: the caller's Options value is unchanged by the run: the options
are cloned on entry and the auto-derived test timeout is applied only to
the local clone, on every return path. -/
theorem caller_options_unchanged (env : LabEnv) (o : Options) :
    (test_unmutated_then_all_mutants env o).2.2 = o := by
  simp only [test_unmutated_then_all_mutants]
  split
  · split
    · rfl
    · split
      · rfl
      · rfl
  · rfl

/-- Witness for C8: three creations in an initially empty parent leave
exactly the current directory (with the last run's content) and one
rotated-aside directory (the second run's content); other names are
untouched. -/
theorem outputDir_rotation_witness :
    (run_sequence [writerId, writerId, writerX] pEmpty outdirName =
      some (writerX freshOutDir))
    ∧ (run_sequence [writerId, writerId, writerX] pEmpty rotatedName =
      some (writerId freshOutDir))
    ∧ run_sequence [writerId, writerId, writerX] pEmpty "Cargo.toml" =
      pEmpty "Cargo.toml" := by
  have h := (outputDir_rotation pEmpty).2.2.2 [writerId] writerId writerX
  exact ⟨h.1, h.2.1, h.2.2 "Cargo.toml" (by decide) (by decide)⟩

end CargoMutants
